import Mathlib

/-!
Shallow embedding of the DNG opcode-list decoder of
`rawler/src/imgop/dngopcode.rs` and of the `clip` utility of
`rawler/src/imgop/mod.rs`.

Modelling conventions:
* The input `&[u8]` slice is a `List Nat` of bytes (each `< 256` in any
  actual input), and the `std::io::Cursor` position is a plain `Nat`.
* A decoder is a function from buffer and position to either an error or a
  value paired with the new position (`DecM`).
* `f64`/`f32`/`u16` fields are kept as their raw big-endian bit patterns
  (a `Nat`), since the decoder never performs floating-point arithmetic:
  it only moves bytes into record fields.
* `u32` machine arithmetic is modelled on `Nat` with explicit reduction
  modulo `2 ^ 32` exactly where the Rust source truncates (`as u32` casts)
  or wraps (release-profile `u32` multiplication and addition).
-/

/-- Error type of the decoder: `truncated` models the `UnexpectedEof` error
raised by `read_exact` when a read would pass the end of the buffer;
`sizeMismatch` models the "Invalid opcode size" error built in
`decode_opcode_list`. -/
inductive DecErr where
  | truncated
  | sizeMismatch
deriving DecidableEq, Repr

/-- The decoder monad: buffer and cursor position in, value and new
position (or error) out. -/
abbrev DecM (α : Type) : Type := List Nat → Nat → Except DecErr (α × Nat)

instance : Monad DecM where
  pure a := fun _ pos => .ok (a, pos)
  bind m f := fun b pos =>
    match m b pos with
    | .ok (a, p) => f a b p
    | .error e => .error e

/-- The `u32` modulus. -/
def u32size : Nat := 4294967296

/-- Read exactly `n` bytes at the cursor, as `read_exact` does on a
`Cursor<&[u8]>`: it fails (with `UnexpectedEof`) when fewer than `n`
bytes remain past the current position. -/
def readBytes (n : Nat) : DecM (List Nat) := fun b pos =>
  if pos + n ≤ b.length then .ok ((b.drop pos).take n, pos + n) else .error .truncated

/-- Big-endian value of a byte list. -/
def beNat (l : List Nat) : Nat := l.foldl (fun a x => a * 256 + x) 0

/-- Model of `read_u32::<BigEndian>`. -/
def read_u32 : DecM Nat := do pure (beNat (← readBytes 4))

/-- Model of `read_u16::<BigEndian>`. -/
def read_u16 : DecM Nat := do pure (beNat (← readBytes 2))

/-- Model of `read_f64::<BigEndian>`; the value is the raw 8-byte pattern. -/
def read_f64 : DecM Nat := do pure (beNat (← readBytes 8))

/-- Model of `read_f32::<BigEndian>`; the value is the raw 4-byte pattern. -/
def read_f32 : DecM Nat := do pure (beNat (← readBytes 4))

/-- Model of `cur.position()`. -/
def getPos : DecM Nat := fun _ pos => .ok (pos, pos)

/-- Model of `cur.seek(SeekFrom::Current(n))` for a nonnegative offset: a
`Cursor` seek never fails and may leave the position past the end. -/
def seekBy (n : Nat) : DecM Unit := fun _ pos => .ok ((), pos + n)

/-- Abort with an error. -/
def throwErr {α : Type} (e : DecErr) : DecM α := fun _ _ => .error e

/-- Decode `n` successive elements, as the `(0..n).map(...).collect::<Result<Vec<_>>>()`
and `read_*_into` patterns of the source do: fail on the first failing
element. -/
def decodeN {α : Type} : Nat → DecM α → DecM (List α)
  | 0, _ => pure []
  | k + 1, d => do
    let x ← d
    let xs ← decodeN k d
    pure (x :: xs)

/-- The 14 recognized opcode identifiers (`DngOpcodeId`, `repr(u32)`,
values 1 through 14). -/
inductive DngOpcodeId where
  | WarpRectilinear
  | WarpFisheye
  | FixVignetteRadial
  | FixBadPixelsConstant
  | FixBadPixelsList
  | TrimBounds
  | MapTable
  | MapPolynomial
  | GainMap
  | DeltaPerRow
  | DeltaPerColumn
  | ScalePerRow
  | ScalePerColumn
  | WarpRectilinear2
deriving DecidableEq, Repr

/-- Model of `DngOpcodeId::try_from` derived by `TryFromPrimitive`:
identifiers 1 through 14 resolve, everything else does not. -/
def DngOpcodeId.tryFrom : Nat → Option DngOpcodeId
  | 1 => some .WarpRectilinear
  | 2 => some .WarpFisheye
  | 3 => some .FixVignetteRadial
  | 4 => some .FixBadPixelsConstant
  | 5 => some .FixBadPixelsList
  | 6 => some .TrimBounds
  | 7 => some .MapTable
  | 8 => some .MapPolynomial
  | 9 => some .GainMap
  | 10 => some .DeltaPerRow
  | 11 => some .DeltaPerColumn
  | 12 => some .ScalePerRow
  | 13 => some .ScalePerColumn
  | 14 => some .WarpRectilinear2
  | _ => none

structure DngOpcodeFlags where
  optional : Bool
  preview_skip : Bool
deriving DecidableEq, Repr

/-- `DngOpcodeFlags::decode`: low bit is `optional`, next bit is
`preview_skip`. -/
def DngOpcodeFlags.decode (v : Nat) : DngOpcodeFlags :=
  { optional := decide (0 < v &&& 1), preview_skip := decide (0 < v &&& 2) }

structure DngOpcodeRegion where
  top : Nat
  left : Nat
  bottom : Nat
  right : Nat
  plane : Nat
  planes : Nat
  row_pitch : Nat
  col_pitch : Nat
deriving DecidableEq, Repr

/-- `DngOpcodeRegion::decode`: eight big-endian `u32` fields. -/
def DngOpcodeRegion.decode : DecM DngOpcodeRegion := do
  let top ← read_u32
  let left ← read_u32
  let bottom ← read_u32
  let right ← read_u32
  let plane ← read_u32
  let planes ← read_u32
  let row_pitch ← read_u32
  let col_pitch ← read_u32
  pure { top, left, bottom, right, plane, planes, row_pitch, col_pitch }

structure WarpRectilinearCoef where
  kr : List Nat
  kt : List Nat
deriving DecidableEq, Repr

/-- `WarpRectilinearCoef::decode`: four `f64` then two `f64`. -/
def WarpRectilinearCoef.decode : DecM WarpRectilinearCoef := do
  let kr ← decodeN 4 read_f64
  let kt ← decodeN 2 read_f64
  pure { kr, kt }

structure WarpRectilinear where
  flags : DngOpcodeFlags
  center_x : Nat
  center_y : Nat
  coefs : List WarpRectilinearCoef
deriving DecidableEq, Repr

/-- `WarpRectilinear::decode`. -/
def WarpRectilinear.decode (flags : DngOpcodeFlags) : DecM WarpRectilinear := do
  let n ← read_u32
  let coefs ← decodeN n WarpRectilinearCoef.decode
  let center_x ← read_f64
  let center_y ← read_f64
  pure { flags, center_x, center_y, coefs }

structure WarpFisheyeCoef where
  kr : List Nat
deriving DecidableEq, Repr

/-- `WarpFisheyeCoef::decode`: four `f64`. -/
def WarpFisheyeCoef.decode : DecM WarpFisheyeCoef := do
  let kr ← decodeN 4 read_f64
  pure { kr }

structure WarpFisheye where
  flags : DngOpcodeFlags
  center_x : Nat
  center_y : Nat
  coefs : List WarpFisheyeCoef
deriving DecidableEq, Repr

/-- `WarpFisheye::decode`. -/
def WarpFisheye.decode (flags : DngOpcodeFlags) : DecM WarpFisheye := do
  let n ← read_u32
  let coefs ← decodeN n WarpFisheyeCoef.decode
  let center_x ← read_f64
  let center_y ← read_f64
  pure { flags, center_x, center_y, coefs }

structure FixVignetteRadial where
  flags : DngOpcodeFlags
  k : List Nat
  center_x : Nat
  center_y : Nat
deriving DecidableEq, Repr

/-- `FixVignetteRadial::decode`: five `f64` coefficients then the center. -/
def FixVignetteRadial.decode (flags : DngOpcodeFlags) : DecM FixVignetteRadial := do
  let k ← decodeN 5 read_f64
  let center_x ← read_f64
  let center_y ← read_f64
  pure { flags, k, center_x, center_y }

structure FixBadPixelsConstant where
  flags : DngOpcodeFlags
  constant : Nat
  bayer_phase : Nat
deriving DecidableEq, Repr

/-- `FixBadPixelsConstant::decode`. -/
def FixBadPixelsConstant.decode (flags : DngOpcodeFlags) : DecM FixBadPixelsConstant := do
  let constant ← read_u32
  let bayer_phase ← read_u32
  pure { flags, constant, bayer_phase }

structure BadPoint where
  row : Nat
  column : Nat
deriving DecidableEq, Repr

/-- `BadPoint::decode`. -/
def BadPoint.decode : DecM BadPoint := do
  let row ← read_u32
  let column ← read_u32
  pure { row, column }

structure BadRect where
  top : Nat
  left : Nat
  bottom : Nat
  right : Nat
deriving DecidableEq, Repr

/-- `BadRect::decode`. -/
def BadRect.decode : DecM BadRect := do
  let top ← read_u32
  let left ← read_u32
  let bottom ← read_u32
  let right ← read_u32
  pure { top, left, bottom, right }

structure FixBadPixelsList where
  flags : DngOpcodeFlags
  bayer_phase : Nat
  bad_points : List BadPoint
  bad_rects : List BadRect
deriving DecidableEq, Repr

/-- `FixBadPixelsList::decode`. -/
def FixBadPixelsList.decode (flags : DngOpcodeFlags) : DecM FixBadPixelsList := do
  let bayer_phase ← read_u32
  let num_points ← read_u32
  let num_rects ← read_u32
  let bad_points ← decodeN num_points BadPoint.decode
  let bad_rects ← decodeN num_rects BadRect.decode
  pure { flags, bayer_phase, bad_points, bad_rects }

structure TrimBounds where
  flags : DngOpcodeFlags
  top : Nat
  left : Nat
  bottom : Nat
  right : Nat
deriving DecidableEq, Repr

/-- `TrimBounds::decode`: four big-endian `u32` bounds. -/
def TrimBounds.decode (flags : DngOpcodeFlags) : DecM TrimBounds := do
  let top ← read_u32
  let left ← read_u32
  let bottom ← read_u32
  let right ← read_u32
  pure { flags, top, left, bottom, right }

structure MapTable where
  flags : DngOpcodeFlags
  region : DngOpcodeRegion
  table : List Nat
deriving DecidableEq, Repr

/-- `MapTable::decode`: region, count, then that many `u16` entries. -/
def MapTable.decode (flags : DngOpcodeFlags) : DecM MapTable := do
  let region ← DngOpcodeRegion.decode
  let len ← read_u32
  let table ← decodeN len read_u16
  pure { flags, region, table }

structure MapPolynomial where
  flags : DngOpcodeFlags
  region : DngOpcodeRegion
  coefs : List Nat
deriving DecidableEq, Repr

/-- `MapPolynomial::decode`: region, degree, then `degree + 1` many `f64`
coefficients. -/
def MapPolynomial.decode (flags : DngOpcodeFlags) : DecM MapPolynomial := do
  let region ← DngOpcodeRegion.decode
  let degree ← read_u32
  let coefs ← decodeN (degree + 1) read_f64
  pure { flags, region, coefs }

structure GainMap where
  flags : DngOpcodeFlags
  region : DngOpcodeRegion
  map_points_v : Nat
  map_points_h : Nat
  map_spacing_v : Nat
  map_spacing_h : Nat
  map_origin_v : Nat
  map_origin_h : Nat
  map_planes : Nat
  map_gain : List Nat
deriving DecidableEq, Repr

/-- `GainMap::decode`. The element count of the gain grid is the product
`map_points_h * map_points_v * map_planes` computed in `u32` arithmetic,
which wraps modulo `2 ^ 32` (release-profile semantics of the source's
`u32` multiplication before the `as usize` cast). -/
def GainMap.decode (flags : DngOpcodeFlags) : DecM GainMap := do
  let region ← DngOpcodeRegion.decode
  let map_points_v ← read_u32
  let map_points_h ← read_u32
  let map_spacing_v ← read_f64
  let map_spacing_h ← read_f64
  let map_origin_v ← read_f64
  let map_origin_h ← read_f64
  let map_planes ← read_u32
  let len := (map_points_h * map_points_v * map_planes) % u32size
  let map_gain ← decodeN len read_f32
  pure { flags, region, map_points_v, map_points_h, map_spacing_v, map_spacing_h,
         map_origin_v, map_origin_h, map_planes, map_gain }

structure WarpRectilinear2Coef where
  kr : List Nat
  kt : List Nat
deriving DecidableEq, Repr

/-- `WarpRectilinear2Coef::decode`: fifteen `f64` then two `f64`. -/
def WarpRectilinear2Coef.decode : DecM WarpRectilinear2Coef := do
  let kr ← decodeN 15 read_f64
  let kt ← decodeN 2 read_f64
  pure { kr, kt }

structure WarpRectilinear2 where
  flags : DngOpcodeFlags
  center_x : Nat
  center_y : Nat
  reciprocal_radial : Nat
  coefs : List WarpRectilinear2Coef
deriving DecidableEq, Repr

/-- `WarpRectilinear2::decode`. -/
def WarpRectilinear2.decode (flags : DngOpcodeFlags) : DecM WarpRectilinear2 := do
  let n ← read_u32
  let coefs ← decodeN n WarpRectilinear2Coef.decode
  let center_x ← read_f64
  let center_y ← read_f64
  let reciprocal_radial ← read_u32
  pure { flags, center_x, center_y, reciprocal_radial, coefs }

structure ValuesPerRowOrCol where
  flags : DngOpcodeFlags
  region : DngOpcodeRegion
  values : List Nat
deriving DecidableEq, Repr

/-- `ValuesPerRowOrCol::decode`: region, count, then that many `f32`
values. -/
def ValuesPerRowOrCol.decode (flags : DngOpcodeFlags) : DecM ValuesPerRowOrCol := do
  let region ← DngOpcodeRegion.decode
  let len ← read_u32
  let values ← decodeN len read_f32
  pure { flags, region, values }

/-- The closed union of decoded opcode records (`enum DngOpcode`). -/
inductive DngOpcode where
  | WarpRectilinear : WarpRectilinear → DngOpcode
  | WarpFisheye : WarpFisheye → DngOpcode
  | FixVignetteRadial : FixVignetteRadial → DngOpcode
  | FixBadPixelsConstant : FixBadPixelsConstant → DngOpcode
  | FixBadPixelsList : FixBadPixelsList → DngOpcode
  | TrimBounds : TrimBounds → DngOpcode
  | MapTable : MapTable → DngOpcode
  | MapPolynomial : MapPolynomial → DngOpcode
  | GainMap : GainMap → DngOpcode
  | DeltaPerRow : ValuesPerRowOrCol → DngOpcode
  | DeltaPerColumn : ValuesPerRowOrCol → DngOpcode
  | ScalePerRow : ValuesPerRowOrCol → DngOpcode
  | ScalePerColumn : ValuesPerRowOrCol → DngOpcode
  | WarpRectilinear2 : WarpRectilinear2 → DngOpcode
deriving DecidableEq, Repr

/-- The payload dispatch of `decode_opcode_list`'s inner `match`. -/
def decodeOp (op_id : DngOpcodeId) (flags : DngOpcodeFlags) : DecM DngOpcode :=
  match op_id with
  | .WarpRectilinear => do pure (DngOpcode.WarpRectilinear (← WarpRectilinear.decode flags))
  | .WarpFisheye => do pure (DngOpcode.WarpFisheye (← WarpFisheye.decode flags))
  | .FixVignetteRadial => do pure (DngOpcode.FixVignetteRadial (← FixVignetteRadial.decode flags))
  | .FixBadPixelsConstant => do pure (DngOpcode.FixBadPixelsConstant (← FixBadPixelsConstant.decode flags))
  | .FixBadPixelsList => do pure (DngOpcode.FixBadPixelsList (← FixBadPixelsList.decode flags))
  | .TrimBounds => do pure (DngOpcode.TrimBounds (← TrimBounds.decode flags))
  | .MapTable => do pure (DngOpcode.MapTable (← MapTable.decode flags))
  | .MapPolynomial => do pure (DngOpcode.MapPolynomial (← MapPolynomial.decode flags))
  | .GainMap => do pure (DngOpcode.GainMap (← GainMap.decode flags))
  | .DeltaPerRow => do pure (DngOpcode.DeltaPerRow (← ValuesPerRowOrCol.decode flags))
  | .DeltaPerColumn => do pure (DngOpcode.DeltaPerColumn (← ValuesPerRowOrCol.decode flags))
  | .ScalePerRow => do pure (DngOpcode.ScalePerRow (← ValuesPerRowOrCol.decode flags))
  | .ScalePerColumn => do pure (DngOpcode.ScalePerColumn (← ValuesPerRowOrCol.decode flags))
  | .WarpRectilinear2 => do pure (DngOpcode.WarpRectilinear2 (← WarpRectilinear2.decode flags))

/-- One iteration of the `for` loop of `decode_opcode_list`: read the
four-word header, then either dispatch on a resolved identifier and check
exact consumption (positions compared after truncation to `u32`, as the
source's `cur.position() as u32` casts do), or skip the declared payload
length for an unresolved identifier. Returns `some` record, or `none` for
a skipped entry. -/
def decodeEntry : DecM (Option DngOpcode) := do
  let op_id_code ← read_u32
  let _op_spec_ver ← read_u32
  let op_flags ← read_u32
  let op_len ← read_u32
  let pos_start ← getPos
  match DngOpcodeId.tryFrom op_id_code with
  | some op_id =>
    let flags := DngOpcodeFlags.decode op_flags
    let op ← decodeOp op_id flags
    let pos_end ← getPos
    if (pos_start % u32size + op_len) % u32size ≠ pos_end % u32size then
      throwErr .sizeMismatch
    else
      pure (some op)
  | none => do
    seekBy op_len
    pure none

/-- The `for _ in 0..count` loop of `decode_opcode_list`, accumulating the
records of resolved entries in stream order. -/
def decodeEntries : Nat → DecM (List DngOpcode)
  | 0 => pure []
  | k + 1 => do
    match ← decodeEntry with
    | some op => do
      let rest ← decodeEntries k
      pure (op :: rest)
    | none => decodeEntries k

/-- Model of `decode_opcode_list`: read the big-endian entry count at
offset 0 and run the entry loop; surface either the full record list or
the single fatal error. -/
def decode_opcode_list (b : List Nat) : Except DecErr (List DngOpcode) :=
  match (do
      let count ← read_u32
      decodeEntries count : DecM (List DngOpcode)) b 0 with
  | .ok (ops, _) => .ok ops
  | .error e => .error e

/-- Big-endian 4-byte encoding of a `u32` value. -/
def be32 (w : Nat) : List Nat :=
  [w / 16777216 % 256, w / 65536 % 256, w / 256 % 256, w % 256]

/-! Model of `f32` values for the `clip` utility of `imgop/mod.rs`.
An `f32` is either the not-a-number value or an ordered (finite or
infinite) value; IEEE 754 comparisons on non-NaN values form a linear
order, modelled here on the rationals, and every comparison involving
NaN is false. -/
inductive F32 where
  | nan : F32
  | val : ℚ → F32
deriving DecidableEq

/-- IEEE `>` on `f32`: false whenever either side is NaN. -/
def fgt : F32 → F32 → Bool
  | .val a, .val b => decide (b < a)
  | _, _ => false

/-- IEEE `<` on `f32`: false whenever either side is NaN. -/
def flt : F32 → F32 → Bool
  | .val a, .val b => decide (a < b)
  | _, _ => false

/-- IEEE `≤` on `f32`: false whenever either side is NaN. -/
def fle : F32 → F32 → Bool
  | .val a, .val b => decide (a ≤ b)
  | _, _ => false

/-- Model of `f32::is_nan`. -/
def F32.is_nan : F32 → Bool
  | .nan => true
  | .val _ => false

/-- Model of `clip` from `imgop/mod.rs`, branch for branch. -/
def clip (p mn mx : F32) : F32 :=
  if fgt p mx then mx
  else if flt p mn then mn
  else if p.is_nan then mn
  else p

/-- The region value decoded from a 32-byte chunk, field by field. -/
def regionOfBytes (r : List Nat) : DngOpcodeRegion :=
  { top := beNat (r.take 4)
    left := beNat ((r.drop 4).take 4)
    bottom := beNat (((r.drop 4).drop 4).take 4)
    right := beNat ((((r.drop 4).drop 4).drop 4).take 4)
    plane := beNat (((((r.drop 4).drop 4).drop 4).drop 4).take 4)
    planes := beNat ((((((r.drop 4).drop 4).drop 4).drop 4).drop 4).take 4)
    row_pitch := beNat (((((((r.drop 4).drop 4).drop 4).drop 4).drop 4).drop 4).take 4)
    col_pitch := beNat ((((((((r.drop 4).drop 4).drop 4).drop 4).drop 4).drop 4).drop 4).take 4) }

/-- Buffer for the C1 counterexample: count 1, then one DeltaPerRow entry
(id 10) with declared payload length 36 whose payload (an all-zero
region, the count word `2 ^ 30`, and `2 ^ 30` all-zero floats) makes the
decoder consume `36 + 2 ^ 32` bytes. -/
def c1cexBuf : List Nat :=
  be32 1 ++ (be32 10 ++ (be32 0 ++ (be32 0 ++ (be32 36 ++
    (List.replicate 32 0 ++ (be32 1073741824 ++ List.replicate 4294967296 0))))))

/-- The record that `decode_opcode_list` returns for `c1cexBuf`. -/
def c1cexRecord : DngOpcode :=
  DngOpcode.DeltaPerRow
    { flags := DngOpcodeFlags.decode 0
      region := regionOfBytes (List.replicate 32 0)
      values := List.replicate 1073741824 0 }

/-- Contiguous-read locality of a decoder: a successful run only moves
the cursor forward, ends inside the buffer (or where it started), and
both its value and its final position depend only on the bytes between
the two positions. Every payload decoder has this property, because all
primitives read forward from the cursor. -/
def Loc {α : Type} (m : DecM α) : Prop :=
  ∀ (b1 b2 : List Nat) (pos : Nat) (a : α) (p : Nat),
    m b1 pos = .ok (a, p) →
    pos ≤ p ∧ (p ≤ b1.length ∨ p = pos) ∧
      (b1.length = b2.length →
        (b1.drop pos).take (p - pos) = (b2.drop pos).take (p - pos) →
        m b2 pos = .ok (a, p))

/-- One syntactic entry of an opcode-list buffer, seen from the encoding
side: the three header values that are not the payload length, plus the
raw payload bytes. The encoded `payload_len` field is the payload's
actual length, which is how the entry framing of the stream is defined. -/
structure RawEntry where
  id : Nat
  spec : Nat
  flags : Nat
  payload : List Nat
deriving DecidableEq, Repr

def encodeRawEntry (e : RawEntry) : List Nat :=
  be32 e.id ++ be32 e.spec ++ be32 e.flags ++ be32 e.payload.length ++ e.payload

def encodeRawEntries : List RawEntry → List Nat
  | [] => []
  | e :: es => encodeRawEntry e ++ encodeRawEntries es

/-- An opcode-list buffer: the entry count followed by the encoded
entries and arbitrary trailing bytes. -/
def encodeRawList (es : List RawEntry) (rest : List Nat) : List Nat :=
  be32 es.length ++ (encodeRawEntries es ++ rest)

/-- Two entry lists that are identical except possibly in the values of
their `spec_version` fields. -/
def SpecEq : List RawEntry → List RawEntry → Prop
  | [], [] => True
  | e1 :: es1, e2 :: es2 =>
    e1.id = e2.id ∧ e1.flags = e2.flags ∧ e1.payload = e2.payload ∧ SpecEq es1 es2
  | _, _ => False

def WfEntry (e : RawEntry) : Prop :=
  e.id < u32size ∧ e.spec < u32size ∧ e.flags < u32size ∧ e.payload.length < u32size

def WfEntries : List RawEntry → Prop
  | [] => True
  | e :: es => WfEntry e ∧ WfEntries es

/-- An opcode-list buffer whose last entry is given only as a header: a
count word for `es.length + 1` entries, the encoded entries `es`, then a
bare 16-byte header (for the final entry) followed by arbitrary bytes.
This covers buffers whose final entry is an unknown-id entry with a
declared length that may overrun the buffer. -/
def encodeRawListTail (es : List RawEntry) (id spec flags len : Nat) (short : List Nat) :
    List Nat :=
  be32 (es.length + 1) ++
    (encodeRawEntries es ++ (be32 id ++ be32 spec ++ be32 flags ++ be32 len ++ short))

/-- First entry of the large-buffer C7 demonstration: a DeltaPerRow
opcode whose declared payload length is 36 (an all-zero region plus the
count word `2 ^ 30`) but whose payload decoder consumes `36 + 2 ^ 32`
bytes. -/
def c7bigEntry1 : RawEntry :=
  ⟨10, 0, 0, List.replicate 32 0 ++ be32 1073741824⟩

/-- Second entry of the large-buffer C7 demonstration: an unknown-id
entry whose spec_version word is read as float data by the first entry's
overrunning payload decoder. -/
def c7bigEntry2 (s : Nat) : RawEntry :=
  ⟨0, s, 0, List.replicate 4294967296 0⟩

/-- The single record decoded from the large-buffer C7 demonstration:
its second float value is the second entry's spec_version word. -/
def c7bigRecord (s : Nat) : DngOpcode :=
  DngOpcode.DeltaPerRow
    { flags := DngOpcodeFlags.decode 0
      region := regionOfBytes (List.replicate 32 0)
      values := 0 :: s :: 0 :: 0 :: List.replicate 1073741820 0 }

/-! Evaluation lemmas for the decoder monad and buffer reads. -/

theorem bind_eval {α β : Type} (m : DecM α) (f : α → DecM β) (b : List Nat) (pos : Nat) :
    (m >>= f) b pos = match m b pos with
      | .ok (a, p) => f a b p
      | .error e => .error e := rfl

theorem pure_eval {α : Type} (a : α) (b : List Nat) (pos : Nat) :
    (pure a : DecM α) b pos = .ok (a, pos) := rfl

theorem getPos_eval (b : List Nat) (pos : Nat) : getPos b pos = .ok (pos, pos) := rfl

theorem seekBy_eval (n : Nat) (b : List Nat) (pos : Nat) : seekBy n b pos = .ok ((), pos + n) := rfl

theorem drop_advance {b c rest : List Nat} {pos n : Nat}
    (h : b.drop pos = c ++ rest) (hc : c.length = n) : b.drop (pos + n) = rest := by
  have : b.drop (pos + n) = (b.drop pos).drop n := by
    rw [List.drop_drop, Nat.add_comm]
  rw [this, h, ← hc, List.drop_left]

theorem length_of_drop {b l : List Nat} {pos : Nat} (h : b.drop pos = l) (hne : l ≠ []) :
    b.length = pos + l.length := by
  have hlen : (b.drop pos).length = b.length - pos := List.length_drop pos b
  rw [h] at hlen
  have hpos : pos < b.length := by
    by_contra hcon
    rw [List.drop_eq_nil_of_le (by omega)] at h
    exact hne h.symm
  omega

theorem readBytes_chunk {b c rest : List Nat} {pos n : Nat}
    (h : b.drop pos = c ++ rest) (hc : c.length = n) (hn : 0 < n) :
    readBytes n b pos = .ok (c, pos + n) := by
  have hne : c ++ rest ≠ [] := by
    intro hcon
    have := congrArg List.length hcon
    simp [hc] at this
    omega
  have hlen := length_of_drop h hne
  simp only [List.length_append, hc] at hlen
  unfold readBytes
  rw [if_pos (by omega), h, ← hc, List.take_left]

theorem read_u32_chunk {b c rest : List Nat} {pos : Nat}
    (h : b.drop pos = c ++ rest) (hc : c.length = 4) :
    read_u32 b pos = .ok (beNat c, pos + 4) := by
  unfold read_u32
  rw [bind_eval, readBytes_chunk h hc (by omega)]
  rfl

theorem read_u16_chunk {b c rest : List Nat} {pos : Nat}
    (h : b.drop pos = c ++ rest) (hc : c.length = 2) :
    read_u16 b pos = .ok (beNat c, pos + 2) := by
  unfold read_u16
  rw [bind_eval, readBytes_chunk h hc (by omega)]
  rfl

theorem read_f64_chunk {b c rest : List Nat} {pos : Nat}
    (h : b.drop pos = c ++ rest) (hc : c.length = 8) :
    read_f64 b pos = .ok (beNat c, pos + 8) := by
  unfold read_f64
  rw [bind_eval, readBytes_chunk h hc (by omega)]
  rfl

theorem read_f32_chunk {b c rest : List Nat} {pos : Nat}
    (h : b.drop pos = c ++ rest) (hc : c.length = 4) :
    read_f32 b pos = .ok (beNat c, pos + 4) := by
  unfold read_f32
  rw [bind_eval, readBytes_chunk h hc (by omega)]
  rfl

theorem be32_length (w : Nat) : (be32 w).length = 4 := rfl

theorem beNat_be32 {w : Nat} (hw : w < u32size) : beNat (be32 w) = w := by
  simp only [beNat, be32, List.foldl, u32size] at *
  omega

theorem read_u32_be32 {b rest : List Nat} {pos w : Nat} (hw : w < u32size)
    (h : b.drop pos = be32 w ++ rest) :
    read_u32 b pos = .ok (w, pos + 4) := by
  rw [read_u32_chunk h (be32_length w), beNat_be32 hw]

theorem decodeEntry_eval {b rest : List Nat} {pos id spec flags len : Nat}
    (hid : id < u32size) (hspec : spec < u32size) (hfl : flags < u32size) (hlen : len < u32size)
    (h : b.drop pos = be32 id ++ be32 spec ++ be32 flags ++ be32 len ++ rest) :
    decodeEntry b pos = match DngOpcodeId.tryFrom id with
      | none => .ok (none, pos + 16 + len)
      | some op_id =>
        match decodeOp op_id (DngOpcodeFlags.decode flags) b (pos + 16) with
        | .error e => .error e
        | .ok (op, p) =>
          if ((pos + 16) % u32size + len) % u32size ≠ p % u32size then .error .sizeMismatch
          else .ok (some op, p) := by
  simp only [List.append_assoc] at h
  have h2 := drop_advance h (be32_length id)
  have h3 := drop_advance h2 (be32_length spec)
  have h4 := drop_advance h3 (be32_length flags)
  have h5 := drop_advance h4 (be32_length len)
  have e8 : pos + 4 + 4 = pos + 8 := by omega
  have e12 : pos + 8 + 4 = pos + 12 := by omega
  have e16 : pos + 12 + 4 = pos + 16 := by omega
  rw [e8] at h3
  rw [e8, e12] at h4
  unfold decodeEntry
  simp only [bind_eval, read_u32_be32 hid h, read_u32_be32 hspec h2, read_u32_be32 hfl h3,
    read_u32_be32 hlen h4, getPos_eval, seekBy_eval, Nat.add_assoc, Nat.reduceAdd]
  cases htf : DngOpcodeId.tryFrom id with
  | none =>
    simp only [bind_eval, seekBy_eval, Nat.add_assoc, Nat.reduceAdd]
    rfl
  | some op_id =>
    simp only [bind_eval, getPos_eval]
    cases hop : decodeOp op_id (DngOpcodeFlags.decode flags) b (pos + 16) with
    | error e => rfl
    | ok v =>
      obtain ⟨op, p⟩ := v
      show (if ((pos + 16) % u32size + len) % u32size ≠ p % u32size then throwErr DecErr.sizeMismatch
            else pure (some op) : DecM (Option DngOpcode)) b p =
        if ((pos + 16) % u32size + len) % u32size ≠ p % u32size then Except.error DecErr.sizeMismatch
        else Except.ok (some op, p)
      by_cases hc : ((pos + 16) % u32size + len) % u32size ≠ p % u32size
      · rw [if_pos hc, if_pos hc]
        rfl
      · rw [if_neg hc, if_neg hc]
        rfl

theorem decodeEntries_zero (b : List Nat) (pos : Nat) :
    decodeEntries 0 b pos = .ok ([], pos) := rfl

theorem decodeEntries_succ (k : Nat) (b : List Nat) (pos : Nat) :
    decodeEntries (k + 1) b pos = match decodeEntry b pos with
      | .ok (some op, p) =>
        (match decodeEntries k b p with
          | .ok (ops, p2) => .ok (op :: ops, p2)
          | .error e => .error e)
      | .ok (none, p) => decodeEntries k b p
      | .error e => .error e := by
  show (decodeEntry >>= fun o => _) b pos = _
  rw [bind_eval]
  cases hd : decodeEntry b pos with
  | error e => rfl
  | ok v =>
    obtain ⟨o, p⟩ := v
    cases o with
    | none => rfl
    | some op =>
      show (decodeEntries k >>= fun rest => pure (op :: rest)) b p =
        match decodeEntries k b p with
        | .ok (ops, p2) => .ok (op :: ops, p2)
        | .error e => .error e
      rw [bind_eval]
      cases he : decodeEntries k b p with
      | error e => rfl
      | ok w => obtain ⟨ops, p2⟩ := w; rfl

theorem decodeEntries_add (j k : Nat) (b : List Nat) (pos : Nat) :
    decodeEntries (j + k) b pos = match decodeEntries j b pos with
      | .ok (ops, p) =>
        (match decodeEntries k b p with
          | .ok (ops2, p2) => .ok (ops ++ ops2, p2)
          | .error e => .error e)
      | .error e => .error e := by
  induction j generalizing pos with
  | zero =>
    rw [Nat.zero_add]
    show decodeEntries k b pos = match decodeEntries k b pos with
      | .ok (ops2, p2) => .ok (([] : List DngOpcode) ++ ops2, p2)
      | .error e => .error e
    cases h : decodeEntries k b pos with
    | error e => rfl
    | ok v => obtain ⟨ops2, p2⟩ := v; simp
  | succ j ih =>
    have ej : j + 1 + k = (j + k) + 1 := by omega
    rw [ej, decodeEntries_succ, decodeEntries_succ]
    cases hd : decodeEntry b pos with
    | error e => rfl
    | ok v =>
      obtain ⟨o, p⟩ := v
      cases o with
      | none => exact ih p
      | some op =>
        show (match decodeEntries (j + k) b p with
            | .ok (ops, p2) => (.ok (op :: ops, p2) : Except DecErr (List DngOpcode × Nat))
            | .error e => .error e) =
          match (match decodeEntries j b p with
              | .ok (ops, p2) => (.ok (op :: ops, p2) : Except DecErr (List DngOpcode × Nat))
              | .error e => .error e) with
            | .ok (ops, q) =>
              (match decodeEntries k b q with
                | .ok (ops2, p2) => .ok (ops ++ ops2, p2)
                | .error e => .error e)
            | .error e => .error e
        rw [ih p]
        cases hj : decodeEntries j b p with
        | error e => rfl
        | ok w =>
          obtain ⟨ops, p2⟩ := w
          show (match (match decodeEntries k b p2 with
              | .ok (ops2, q2) => (.ok (ops ++ ops2, q2) : Except DecErr (List DngOpcode × Nat))
              | .error e => .error e) with
            | .ok (l, q) => (.ok (op :: l, q) : Except DecErr (List DngOpcode × Nat))
            | .error e => .error e) =
            match decodeEntries k b p2 with
            | .ok (ops2, q2) => .ok ((op :: ops) ++ ops2, q2)
            | .error e => .error e
          cases hk : decodeEntries k b p2 with
          | error e => rfl
          | ok u => obtain ⟨ops2, p3⟩ := u; simp

theorem tryFrom_eq_none {id : Nat} (h : id = 0 ∨ 14 < id) : DngOpcodeId.tryFrom id = none := by
  rcases h with h | h
  · subst h; rfl
  · rw [DngOpcodeId.tryFrom.eq_def]
    split <;> first | rfl | omega

theorem read_u32_start {b : List Nat} (h4 : 4 ≤ b.length) :
    read_u32 b 0 = .ok (beNat (b.take 4), 4) := by
  have hsplit : b.drop 0 = b.take 4 ++ b.drop 4 := by
    simp [List.take_append_drop]
  have hlen : (b.take 4).length = 4 := by
    rw [List.length_take]; omega
  rw [read_u32_chunk hsplit hlen]

theorem decode_opcode_list_eval {b : List Nat} {count : Nat}
    (h : read_u32 b 0 = .ok (count, 4)) :
    decode_opcode_list b = match decodeEntries count b 4 with
      | .ok (ops, _) => .ok ops
      | .error e => .error e := by
  unfold decode_opcode_list
  rw [bind_eval, h]

/-- C2: an entry whose id is outside 1..=14 contributes no record and
advances the cursor by exactly `payload_len` bytes past the 16-byte
header; the remaining entries are decoded from that offset exactly as if
the unknown entry were absent. -/
theorem c2_unknown_skip (b rest : List Nat) (pos k id spec flags len : Nat)
    (hid : id < u32size) (hspec : spec < u32size) (hfl : flags < u32size) (hlen : len < u32size)
    (hout : id = 0 ∨ 14 < id)
    (h : b.drop pos = be32 id ++ be32 spec ++ be32 flags ++ be32 len ++ rest) :
    decodeEntry b pos = .ok (none, pos + 16 + len) ∧
      decodeEntries (k + 1) b pos = decodeEntries k b (pos + 16 + len) := by
  have hskip : decodeEntry b pos = .ok (none, pos + 16 + len) := by
    rw [decodeEntry_eval hid hspec hfl hlen h, tryFrom_eq_none hout]
  refine ⟨hskip, ?_⟩
  rw [decodeEntries_succ, hskip]

/-- Witness for C2 at a concrete skipped entry: id 20, payload length 4. -/
theorem c2_unknown_skip_witness :
    (20 : Nat) < u32size ∧ ((20 : Nat) = 0 ∨ 14 < (20 : Nat)) ∧
      decodeEntry (be32 20 ++ be32 0 ++ be32 0 ++ be32 4 ++ [1, 2, 3, 4]) 0 = .ok (none, 0 + 16 + 4) ∧
      decodeEntries 1 (be32 20 ++ be32 0 ++ be32 0 ++ be32 4 ++ [1, 2, 3, 4]) 0 =
        decodeEntries 0 (be32 20 ++ be32 0 ++ be32 0 ++ be32 4 ++ [1, 2, 3, 4]) (0 + 16 + 4) := by
  have hw := c2_unknown_skip (be32 20 ++ be32 0 ++ be32 0 ++ be32 4 ++ [1, 2, 3, 4]) [1, 2, 3, 4]
    0 0 20 0 0 4 (by decide) (by decide) (by decide) (by decide) (Or.inr (by decide)) (by rfl)
  exact ⟨by decide, Or.inr (by decide), hw.1, hw.2⟩

/-- C5: decoding the concrete buffer with count 1, id 6 (TrimBounds),
spec version 0, flags 1, payload length 16 and payload words 0, 0, 100,
200 yields exactly one TrimBounds record with `optional` set,
`preview_skip` clear and bounds 0, 0, 100, 200. -/
theorem c5_trimbounds_concrete :
    decode_opcode_list
        (be32 1 ++ be32 6 ++ be32 0 ++ be32 1 ++ be32 16 ++ be32 0 ++ be32 0 ++ be32 100 ++ be32 200) =
      .ok [DngOpcode.TrimBounds
        { flags := { optional := true, preview_skip := false },
          top := 0, left := 0, bottom := 100, right := 200 }] := by
  rfl

/-- C6: a buffer of at least four bytes whose leading big-endian 32-bit
word is zero decodes to a successful empty record list, whatever follows
the count. -/
theorem c6_zero_count (b : List Nat) (h4 : 4 ≤ b.length) (h0 : beNat (b.take 4) = 0) :
    decode_opcode_list b = .ok [] := by
  have hr : read_u32 b 0 = .ok (0, 4) := by
    rw [read_u32_start h4, h0]
  rw [decode_opcode_list_eval hr, decodeEntries_zero]

/-- Witness for C6 on a concrete buffer with trailing garbage. -/
theorem c6_zero_count_witness :
    4 ≤ ([0, 0, 0, 0, 7, 7, 7] : List Nat).length ∧
      beNat (([0, 0, 0, 0, 7, 7, 7] : List Nat).take 4) = 0 ∧
      decode_opcode_list [0, 0, 0, 0, 7, 7, 7] = .ok [] :=
  ⟨by decide, by decide, c6_zero_count [0, 0, 0, 0, 7, 7, 7] (by decide) (by decide)⟩

/-- C8: with `min ≤ max` (an IEEE comparison, so both are non-NaN),
`clip` returns `max` above `max`, `min` below `min`, `min` on NaN, the
value itself otherwise, and its result always lies in the interval. -/
theorem c8_clip (v mn mx : F32) (h : fle mn mx = true) :
    (fgt v mx = true → clip v mn mx = mx) ∧
    (flt v mn = true → clip v mn mx = mn) ∧
    (v.is_nan = true → clip v mn mx = mn) ∧
    (fgt v mx = false → flt v mn = false → v.is_nan = false → clip v mn mx = v) ∧
    fle mn (clip v mn mx) = true ∧ fle (clip v mn mx) mx = true := by
  rcases mn with _ | a
  · simp [fle] at h
  rcases mx with _ | b
  · simp [fle] at h
  simp only [fle, decide_eq_true_eq] at h
  rcases v with _ | q
  · have hc : clip F32.nan (F32.val a) (F32.val b) = F32.val a := by
      simp [clip, fgt, flt, F32.is_nan]
    refine ⟨?_, ?_, fun _ => hc, ?_, ?_, ?_⟩
    · intro hg; simp [fgt] at hg
    · intro hl; simp [flt] at hl
    · intro _ _ hn; simp [F32.is_nan] at hn
    · rw [hc]; simp [fle]
    · rw [hc]; simp only [fle, decide_eq_true_eq]; exact h
  · by_cases h1 : b < q
    · have hgt : fgt (F32.val q) (F32.val b) = true := by simp [fgt, h1]
      have hc : clip (F32.val q) (F32.val a) (F32.val b) = F32.val b := by
        simp [clip, hgt]
      refine ⟨fun _ => hc, ?_, ?_, ?_, ?_, ?_⟩
      · intro hl; simp only [flt, decide_eq_true_eq] at hl; linarith
      · intro hn; simp [F32.is_nan] at hn
      · intro hg _ _; rw [hgt] at hg; cases hg
      · rw [hc]; simp only [fle, decide_eq_true_eq]; exact h
      · rw [hc]; simp [fle]
    · by_cases h2 : q < a
      · have hgt : fgt (F32.val q) (F32.val b) = false := by simp [fgt, h1]
        have hlt : flt (F32.val q) (F32.val a) = true := by simp [flt, h2]
        have hc : clip (F32.val q) (F32.val a) (F32.val b) = F32.val a := by
          simp [clip, hgt, hlt]
        refine ⟨?_, fun _ => hc, ?_, ?_, ?_, ?_⟩
        · intro hg; rw [hgt] at hg; cases hg
        · intro hn; simp [F32.is_nan] at hn
        · intro _ hl _; rw [hlt] at hl; cases hl
        · rw [hc]; simp [fle]
        · rw [hc]; simp only [fle, decide_eq_true_eq]; exact h
      · have hgt : fgt (F32.val q) (F32.val b) = false := by simp [fgt, h1]
        have hlt : flt (F32.val q) (F32.val a) = false := by simp [flt, h2]
        have hc : clip (F32.val q) (F32.val a) (F32.val b) = F32.val q := by
          simp [clip, hgt, hlt, F32.is_nan]
        refine ⟨?_, ?_, ?_, fun _ _ _ => hc, ?_, ?_⟩
        · intro hg; rw [hgt] at hg; cases hg
        · intro hl; rw [hlt] at hl; cases hl
        · intro hn; simp [F32.is_nan] at hn
        · rw [hc]; simp only [fle, decide_eq_true_eq]; linarith [not_lt.mp h2]
        · rw [hc]; simp only [fle, decide_eq_true_eq]; linarith [not_lt.mp h1]

/-- Witness for C8 at value 5 with bounds 0 and 3. -/
theorem c8_clip_witness :
    fle (F32.val 0) (F32.val 3) = true ∧
      ((fgt (F32.val 5) (F32.val 3) = true → clip (F32.val 5) (F32.val 0) (F32.val 3) = F32.val 3) ∧
       (flt (F32.val 5) (F32.val 0) = true → clip (F32.val 5) (F32.val 0) (F32.val 3) = F32.val 0) ∧
       ((F32.val 5).is_nan = true → clip (F32.val 5) (F32.val 0) (F32.val 3) = F32.val 0) ∧
       (fgt (F32.val 5) (F32.val 3) = false → flt (F32.val 5) (F32.val 0) = false →
         (F32.val 5).is_nan = false → clip (F32.val 5) (F32.val 0) (F32.val 3) = F32.val 5) ∧
       fle (F32.val 0) (clip (F32.val 5) (F32.val 0) (F32.val 3)) = true ∧
       fle (clip (F32.val 5) (F32.val 0) (F32.val 3)) (F32.val 3) = true) :=
  ⟨by decide, c8_clip (F32.val 5) (F32.val 0) (F32.val 3) (by decide)⟩

theorem readBytes_trunc {b : List Nat} {pos n : Nat} (h : b.length < pos + n) :
    readBytes n b pos = .error .truncated := by
  unfold readBytes
  rw [if_neg (by omega)]

theorem read_u32_trunc {b : List Nat} {pos : Nat} (h : b.length < pos + 4) :
    read_u32 b pos = .error .truncated := by
  unfold read_u32
  rw [bind_eval, readBytes_trunc h]

theorem read_u32_ok {b : List Nat} {pos : Nat} (h : pos + 4 ≤ b.length) :
    read_u32 b pos = .ok (beNat ((b.drop pos).take 4), pos + 4) := by
  unfold read_u32 readBytes
  rw [bind_eval, if_pos h]
  rfl

theorem decodeEntry_header_trunc {b : List Nat} {p : Nat} (h : b.length < p + 16) :
    decodeEntry b p = .error .truncated := by
  unfold decodeEntry
  by_cases h1 : p + 4 ≤ b.length
  · simp only [bind_eval, read_u32_ok h1]
    by_cases h2 : p + 4 + 4 ≤ b.length
    · simp only [bind_eval, read_u32_ok h2]
      by_cases h3 : p + 4 + 4 + 4 ≤ b.length
      · simp only [bind_eval, read_u32_ok h3]
        simp only [bind_eval, read_u32_trunc (show b.length < p + 4 + 4 + 4 + 4 by omega)]
      · simp only [bind_eval, read_u32_trunc (show b.length < p + 4 + 4 + 4 by omega)]
    · simp only [bind_eval, read_u32_trunc (show b.length < p + 4 + 4 by omega)]
  · simp only [bind_eval, read_u32_trunc (show b.length < p + 4 by omega)]

theorem decode_error_propagation {b : List Nat} {j k p : Nat} {ops : List DngOpcode} {e : DecErr}
    (hc : read_u32 b 0 = .ok (j + k + 1, 4))
    (hj : decodeEntries j b 4 = .ok (ops, p))
    (he : decodeEntry b p = .error e) :
    decode_opcode_list b = .error e := by
  have ha : j + k + 1 = j + (k + 1) := by omega
  rw [ha] at hc
  rw [decode_opcode_list_eval hc, decodeEntries_add j (k + 1) b 4, hj]
  show (match (match decodeEntries (k + 1) b p with
      | .ok (ops2, p2) => (.ok (ops ++ ops2, p2) : Except DecErr (List DngOpcode × Nat))
      | .error e2 => .error e2) with
    | .ok (l, _) => (.ok l : Except DecErr (List DngOpcode))
    | .error e2 => .error e2) = .error e
  rw [decodeEntries_succ, he]

/-- C3: a read past the end of the buffer is exactly what produces the
`truncated` error, and any such failed read - of the entry count, of a
header field, or anywhere inside a resolved entry - makes
`decode_opcode_list` return the fatal `truncated` error with no records. -/
theorem c3_truncation :
    (∀ (b : List Nat) (pos n : Nat), 0 < n →
        (readBytes n b pos = .error .truncated ↔ b.length < pos + n)) ∧
    (∀ b : List Nat, b.length < 4 → decode_opcode_list b = .error .truncated) ∧
    (∀ (b : List Nat) (p : Nat), b.length < p + 16 → decodeEntry b p = .error .truncated) ∧
    (∀ (b : List Nat) (j k p : Nat) (ops : List DngOpcode),
        read_u32 b 0 = .ok (j + k + 1, 4) → decodeEntries j b 4 = .ok (ops, p) →
        decodeEntry b p = .error .truncated → decode_opcode_list b = .error .truncated) := by
  refine ⟨?_, ?_, ?_, ?_⟩
  · intro b pos n _
    constructor
    · intro he
      by_contra hcon
      rw [readBytes, if_pos (by omega)] at he
      cases he
    · exact readBytes_trunc
  · intro b h
    unfold decode_opcode_list
    rw [bind_eval, read_u32_trunc (by omega)]
  · intro b p h
    exact decodeEntry_header_trunc h
  · intro b j k p ops hc hj he
    exact decode_error_propagation hc hj he

/-- Witness for C3: a failing primitive read, a short count, a truncated
header, and a truncated TrimBounds payload after a valid header. -/
theorem c3_truncation_witness :
    (readBytes 4 [1, 2] 0 = .error .truncated ↔ ([1, 2] : List Nat).length < 0 + 4) ∧
    decode_opcode_list [0, 0, 0] = .error .truncated ∧
    decodeEntry [9] 0 = .error .truncated ∧
    decode_opcode_list (be32 1 ++ be32 6 ++ be32 0 ++ be32 0 ++ be32 16 ++ [1, 2]) = .error .truncated :=
  ⟨c3_truncation.1 [1, 2] 0 4 (by decide),
   c3_truncation.2.1 [0, 0, 0] (by decide),
   c3_truncation.2.2.1 [9] 0 (by decide),
   c3_truncation.2.2.2 (be32 1 ++ be32 6 ++ be32 0 ++ be32 0 ++ be32 16 ++ [1, 2]) 0 0 4 []
     (by rfl) (by rfl) (by rfl)⟩

/-- C9: for an unresolved entry the cursor advance by `payload_len` is an
unchecked seek that cannot fail, even past the end of the buffer; when
such an over-long unknown entry is the last one, `decode_opcode_list`
returns `ok` with the records decoded so far. -/
theorem c9_skip_past_end (b rest : List Nat) (j p id spec flags len : Nat) (ops : List DngOpcode)
    (hcount : read_u32 b 0 = .ok (j + 1, 4))
    (hj : decodeEntries j b 4 = .ok (ops, p))
    (hid : id < u32size) (hspec : spec < u32size) (hfl : flags < u32size) (hlen : len < u32size)
    (hnone : DngOpcodeId.tryFrom id = none)
    (h : b.drop p = be32 id ++ be32 spec ++ be32 flags ++ be32 len ++ rest)
    (_hover : b.length < p + 16 + len) :
    decodeEntry b p = .ok (none, p + 16 + len) ∧ decode_opcode_list b = .ok ops := by
  have hskip : decodeEntry b p = .ok (none, p + 16 + len) := by
    rw [decodeEntry_eval hid hspec hfl hlen h, hnone]
  refine ⟨hskip, ?_⟩
  rw [decode_opcode_list_eval hcount, decodeEntries_add j 1 b 4, hj]
  show (match (match decodeEntries 1 b p with
      | .ok (ops2, p2) => (.ok (ops ++ ops2, p2) : Except DecErr (List DngOpcode × Nat))
      | .error e2 => .error e2) with
    | .ok (l, _) => (.ok l : Except DecErr (List DngOpcode))
    | .error e2 => .error e2) = .ok ops
  rw [decodeEntries_succ, hskip]
  simp [decodeEntries_zero]

/-- Witness for C9: one entry with unknown id 99 whose declared payload
length 1000 runs far past the 20-byte buffer; the decode still succeeds. -/
theorem c9_skip_past_end_witness :
    decodeEntry (be32 1 ++ be32 99 ++ be32 0 ++ be32 0 ++ be32 1000) 4 = .ok (none, 4 + 16 + 1000) ∧
      decode_opcode_list (be32 1 ++ be32 99 ++ be32 0 ++ be32 0 ++ be32 1000) = .ok [] := by
  have hw := c9_skip_past_end (be32 1 ++ be32 99 ++ be32 0 ++ be32 0 ++ be32 1000) []
    0 4 99 0 0 1000 [] (by rfl) (by rfl) (by decide) (by decide) (by decide) (by decide)
    (by rfl) (by decide) (by decide)
  exact hw

theorem read_u32_step {b c rest : List Nat} {pos n : Nat}
    (h : b.drop pos = c ++ rest) (hc : c.length = n + 4) :
    read_u32 b pos = .ok (beNat (c.take 4), pos + 4) ∧
      b.drop (pos + 4) = c.drop 4 ++ rest ∧ (c.drop 4).length = n := by
  have hsplit : c = c.take 4 ++ c.drop 4 := (List.take_append_drop 4 c).symm
  have h2 : b.drop pos = c.take 4 ++ (c.drop 4 ++ rest) := by
    rw [h, ← List.append_assoc, ← hsplit]
  have ht : (c.take 4).length = 4 := by rw [List.length_take]; omega
  exact ⟨read_u32_chunk h2 ht, drop_advance h2 ht, by rw [List.length_drop]; omega⟩

theorem read_f64_step {b c rest : List Nat} {pos n : Nat}
    (h : b.drop pos = c ++ rest) (hc : c.length = n + 8) :
    read_f64 b pos = .ok (beNat (c.take 8), pos + 8) ∧
      b.drop (pos + 8) = c.drop 8 ++ rest ∧ (c.drop 8).length = n := by
  have hsplit : c = c.take 8 ++ c.drop 8 := (List.take_append_drop 8 c).symm
  have h2 : b.drop pos = c.take 8 ++ (c.drop 8 ++ rest) := by
    rw [h, ← List.append_assoc, ← hsplit]
  have ht : (c.take 8).length = 8 := by rw [List.length_take]; omega
  exact ⟨read_f64_chunk h2 ht, drop_advance h2 ht, by rw [List.length_drop]; omega⟩

theorem region_decode_chunk {b r rest : List Nat} {pos : Nat}
    (hr : r.length = 32) (h : b.drop pos = r ++ rest) :
    DngOpcodeRegion.decode b pos = .ok (regionOfBytes r, pos + 32) ∧
      b.drop (pos + 32) = rest := by
  obtain ⟨e1, d1, l1⟩ := read_u32_step h (show r.length = 28 + 4 by omega)
  obtain ⟨e2, d2, l2⟩ := read_u32_step d1 (show (r.drop 4).length = 24 + 4 by omega)
  obtain ⟨e3, d3, l3⟩ := read_u32_step d2 (show _ = 20 + 4 by omega)
  obtain ⟨e4, d4, l4⟩ := read_u32_step d3 (show _ = 16 + 4 by omega)
  obtain ⟨e5, d5, l5⟩ := read_u32_step d4 (show _ = 12 + 4 by omega)
  obtain ⟨e6, d6, l6⟩ := read_u32_step d5 (show _ = 8 + 4 by omega)
  obtain ⟨e7, d7, l7⟩ := read_u32_step d6 (show _ = 4 + 4 by omega)
  obtain ⟨e8, d8, l8⟩ := read_u32_step d7 (show _ = 0 + 4 by omega)
  constructor
  · unfold DngOpcodeRegion.decode
    simp only [bind_eval, e1, e2, e3, e4, e5, e6, e7, e8, pure_eval,
      Nat.add_assoc, Nat.reduceAdd]
    rfl
  · have hnil : (((((((r.drop 4).drop 4).drop 4).drop 4).drop 4).drop 4).drop 4).drop 4 = [] :=
      List.length_eq_zero.mp l8
    rw [hnil] at d8
    simpa [Nat.add_assoc] using d8

theorem decodeN_read_f32 (n : Nat) : ∀ {b grid rest : List Nat} {pos : Nat},
    grid.length = 4 * n → b.drop pos = grid ++ rest →
    ∃ vals, decodeN n read_f32 b pos = .ok (vals, pos + 4 * n) ∧ vals.length = n := by
  induction n with
  | zero =>
    intro b grid rest pos hl h
    exact ⟨[], by simp [decodeN, pure_eval], rfl⟩
  | succ k ih =>
    intro b grid rest pos hl h
    have h4 : grid.length = 4 * k + 4 := by omega
    have hsplit : grid = grid.take 4 ++ grid.drop 4 := (List.take_append_drop 4 grid).symm
    have h2 : b.drop pos = grid.take 4 ++ (grid.drop 4 ++ rest) := by
      rw [h, ← List.append_assoc, ← hsplit]
    have ht : (grid.take 4).length = 4 := by rw [List.length_take]; omega
    have e1 := read_f32_chunk h2 ht
    have d1 := drop_advance h2 ht
    have l1 : (grid.drop 4).length = 4 * k := by rw [List.length_drop]; omega
    obtain ⟨vals, hv, hlen⟩ := ih l1 d1
    refine ⟨beNat (grid.take 4) :: vals, ?_, by simp [hlen]⟩
    have egoal : pos + 4 + 4 * k = pos + 4 * (k + 1) := by omega
    simp only [decodeN, bind_eval, e1, hv, pure_eval, egoal]

theorem decodeN_read_f32_trunc : ∀ (n : Nat) {b grid : List Nat} {pos : Nat},
    grid.length < 4 * n → b.drop pos = grid →
    decodeN n read_f32 b pos = .error .truncated := by
  intro n
  induction n with
  | zero => intro b grid pos hl _; omega
  | succ k ih =>
    intro b grid pos hl h
    have hble : b.length - pos = grid.length := by
      have := List.length_drop pos b
      rw [h] at this; omega
    by_cases hsmall : grid.length < 4
    · have htr : read_f32 b pos = .error .truncated := by
        unfold read_f32
        rw [bind_eval, readBytes_trunc (by omega)]
      simp only [decodeN, bind_eval, htr]
    · have h4 : 4 ≤ grid.length := by omega
      have hsplit : grid = grid.take 4 ++ grid.drop 4 := (List.take_append_drop 4 grid).symm
      have h2 : b.drop pos = grid.take 4 ++ (grid.drop 4 ++ []) := by
        rw [h, List.append_nil, ← hsplit]
      have ht : (grid.take 4).length = 4 := by rw [List.length_take]; omega
      have e1 := read_f32_chunk h2 ht
      have d1 : b.drop (pos + 4) = grid.drop 4 := by
        have := drop_advance h2 ht
        rwa [List.append_nil] at this
      have hrec := ih (show (grid.drop 4).length < 4 * k by rw [List.length_drop]; omega) d1
      simp only [decodeN, bind_eval, e1, hrec]

theorem GainMap.decode_prefix {b r s rest2 : List Nat} {pos v hh pl : Nat} (fl : DngOpcodeFlags)
    (hr : r.length = 32) (hs : s.length = 32)
    (hv : v < u32size) (hhh : hh < u32size) (hpl : pl < u32size)
    (h : b.drop pos = r ++ (be32 v ++ (be32 hh ++ (s ++ (be32 pl ++ rest2))))) :
    GainMap.decode fl b pos =
      (match decodeN ((hh * v * pl) % u32size) read_f32 b (pos + 76) with
        | .ok (g, p) => .ok
            ({ flags := fl, region := regionOfBytes r, map_points_v := v, map_points_h := hh,
               map_spacing_v := beNat (s.take 8), map_spacing_h := beNat ((s.drop 8).take 8),
               map_origin_v := beNat (((s.drop 8).drop 8).take 8),
               map_origin_h := beNat ((((s.drop 8).drop 8).drop 8).take 8),
               map_planes := pl, map_gain := g }, p)
        | .error e => .error e) ∧
      b.drop (pos + 76) = rest2 := by
  obtain ⟨hreg, hd32⟩ := region_decode_chunk hr h
  have hv32 := read_u32_be32 hv hd32
  rw [show pos + 32 + 4 = pos + 36 by omega] at hv32
  have hd36 : b.drop (pos + 36) = be32 hh ++ (s ++ (be32 pl ++ rest2)) := by
    have hd := drop_advance hd32 (be32_length v)
    rwa [show pos + 32 + 4 = pos + 36 by omega] at hd
  have hh36 := read_u32_be32 hhh hd36
  rw [show pos + 36 + 4 = pos + 40 by omega] at hh36
  have hd40 : b.drop (pos + 40) = s ++ (be32 pl ++ rest2) := by
    have hd := drop_advance hd36 (be32_length hh)
    rwa [show pos + 36 + 4 = pos + 40 by omega] at hd
  obtain ⟨f1, g1, m1⟩ := read_f64_step hd40 (show s.length = 24 + 8 by omega)
  rw [show pos + 40 + 8 = pos + 48 by omega] at f1 g1
  obtain ⟨f2, g2, m2⟩ := read_f64_step g1 (show _ = 16 + 8 by omega)
  rw [show pos + 48 + 8 = pos + 56 by omega] at f2 g2
  obtain ⟨f3, g3, m3⟩ := read_f64_step g2 (show _ = 8 + 8 by omega)
  rw [show pos + 56 + 8 = pos + 64 by omega] at f3 g3
  obtain ⟨f4, g4, m4⟩ := read_f64_step g3 (show _ = 0 + 8 by omega)
  rw [show pos + 64 + 8 = pos + 72 by omega] at f4 g4
  have hnil : (((s.drop 8).drop 8).drop 8).drop 8 = [] := List.length_eq_zero.mp m4
  rw [hnil, List.nil_append] at g4
  have p72 := read_u32_be32 hpl g4
  rw [show pos + 72 + 4 = pos + 76 by omega] at p72
  have hd76 : b.drop (pos + 76) = rest2 := by
    have hd := drop_advance g4 (be32_length pl)
    rwa [show pos + 72 + 4 = pos + 76 by omega] at hd
  refine ⟨?_, hd76⟩
  unfold GainMap.decode
  simp only [bind_eval, hreg, hv32, hh36, f1, f2, f3, f4, p72, pure_eval]
  cases hdec : decodeN (hh * v * pl % u32size) read_f32 b (pos + 76) with
  | error e => rfl
  | ok w => obtain ⟨g, p⟩ := w; rfl

/-- C4: a GainMap payload with 2 x 3 grid points and one plane reads
exactly six 32-bit floats after the region and the seven header fields
(ending at offset `pos + 100`); with only five floats left before the end
of the buffer the decode fails with a truncation error instead of
returning a shorter grid. -/
theorem c4_gainmap_grid :
    (∀ (b r s grid rest : List Nat) (pos : Nat) (fl : DngOpcodeFlags),
        r.length = 32 → s.length = 32 → grid.length = 24 →
        b.drop pos = r ++ (be32 2 ++ (be32 3 ++ (s ++ (be32 1 ++ (grid ++ rest))))) →
        ∃ gm, GainMap.decode fl b pos = .ok (gm, pos + 100) ∧ gm.map_gain.length = 6 ∧
          gm.map_points_v = 2 ∧ gm.map_points_h = 3 ∧ gm.map_planes = 1) ∧
    (∀ (b r s grid : List Nat) (pos : Nat) (fl : DngOpcodeFlags),
        r.length = 32 → s.length = 32 → grid.length = 20 →
        b.drop pos = r ++ (be32 2 ++ (be32 3 ++ (s ++ (be32 1 ++ grid)))) →
        GainMap.decode fl b pos = .error .truncated) := by
  have hmul : 3 * 2 * 1 % u32size = 6 := by decide
  constructor
  · intro b r s grid rest pos fl hr hs hg h
    obtain ⟨hpre, hd76⟩ := GainMap.decode_prefix fl hr hs (by decide) (by decide) (by decide) h
    obtain ⟨vals, hvp, hlen⟩ := decodeN_read_f32 6 (show grid.length = 4 * 6 by omega) hd76
    rw [show pos + 76 + 4 * 6 = pos + 100 by omega] at hvp
    refine ⟨{ flags := fl, region := regionOfBytes r, map_points_v := 2, map_points_h := 3,
              map_spacing_v := beNat (s.take 8), map_spacing_h := beNat ((s.drop 8).take 8),
              map_origin_v := beNat (((s.drop 8).drop 8).take 8),
              map_origin_h := beNat ((((s.drop 8).drop 8).drop 8).take 8),
              map_planes := 1, map_gain := vals }, ?_, hlen, rfl, rfl, rfl⟩
    rw [hpre, hmul, hvp]
  · intro b r s grid pos fl hr hs hg h
    obtain ⟨hpre, hd76⟩ := GainMap.decode_prefix fl hr hs (by decide) (by decide) (by decide) h
    rw [hpre, hmul, decodeN_read_f32_trunc 6 (by omega) hd76]

/-- Witness for C4 on concrete all-zero region, spacing and grid bytes. -/
theorem c4_gainmap_grid_witness :
    (∃ gm, GainMap.decode { optional := false, preview_skip := false }
        (List.replicate 32 0 ++ (be32 2 ++ (be32 3 ++
          (List.replicate 32 0 ++ (be32 1 ++ (List.replicate 24 0 ++ [])))))) 0 =
        .ok (gm, 0 + 100) ∧ gm.map_gain.length = 6 ∧
        gm.map_points_v = 2 ∧ gm.map_points_h = 3 ∧ gm.map_planes = 1) ∧
      GainMap.decode { optional := false, preview_skip := false }
        (List.replicate 32 0 ++ (be32 2 ++ (be32 3 ++
          (List.replicate 32 0 ++ (be32 1 ++ List.replicate 20 0))))) 0 = .error .truncated :=
  ⟨c4_gainmap_grid.1 _ (List.replicate 32 0) (List.replicate 32 0) (List.replicate 24 0) [] 0 _
      (by decide) (by decide) (by decide) (by rfl),
   c4_gainmap_grid.2 _ (List.replicate 32 0) (List.replicate 32 0) (List.replicate 20 0) 0 _
      (by decide) (by decide) (by decide) (by rfl)⟩

/-- C10: the gain grid element count is the product
`map_points_h * map_points_v * map_planes` reduced modulo `2 ^ 32`
(`u32` multiplication), so header values whose true product is `2 ^ 32`
or more make the decoder read only the wrapped number of floats. -/
theorem c10_gainmap_wrap (b r s grid rest : List Nat) (pos v hh pl : Nat) (fl : DngOpcodeFlags)
    (hr : r.length = 32) (hs : s.length = 32)
    (hv : v < u32size) (hhh : hh < u32size) (hpl : pl < u32size)
    (hgrid : grid.length = 4 * (hh * v * pl % u32size))
    (h : b.drop pos = r ++ (be32 v ++ (be32 hh ++ (s ++ (be32 pl ++ (grid ++ rest)))))) :
    ∃ gm, GainMap.decode fl b pos = .ok (gm, pos + 76 + grid.length) ∧
      gm.map_points_v = v ∧ gm.map_points_h = hh ∧ gm.map_planes = pl ∧
      gm.map_gain.length = hh * v * pl % u32size := by
  obtain ⟨hpre, hd76⟩ := GainMap.decode_prefix fl hr hs hv hhh hpl h
  obtain ⟨vals, hvp, hlen⟩ := decodeN_read_f32 (hh * v * pl % u32size) hgrid hd76
  rw [← hgrid] at hvp
  refine ⟨{ flags := fl, region := regionOfBytes r, map_points_v := v, map_points_h := hh,
            map_spacing_v := beNat (s.take 8), map_spacing_h := beNat ((s.drop 8).take 8),
            map_origin_v := beNat (((s.drop 8).drop 8).take 8),
            map_origin_h := beNat ((((s.drop 8).drop 8).drop 8).take 8),
            map_planes := pl, map_gain := vals }, ?_, rfl, rfl, rfl, hlen⟩
  rw [hpre, hvp]

/-- Witness for C10: 65536 x 65536 grid points and one plane have true
product `2 ^ 32`, which wraps to zero, so no grid floats are read. -/
theorem c10_gainmap_wrap_witness :
    ∃ gm, GainMap.decode { optional := false, preview_skip := false }
        (List.replicate 32 0 ++ (be32 65536 ++ (be32 65536 ++
          (List.replicate 32 0 ++ (be32 1 ++ ([] ++ [])))))) 0 =
        .ok (gm, 0 + 76 + ([] : List Nat).length) ∧
      gm.map_points_v = 65536 ∧ gm.map_points_h = 65536 ∧ gm.map_planes = 1 ∧
      gm.map_gain.length = 65536 * 65536 * 1 % u32size :=
  c10_gainmap_wrap _ (List.replicate 32 0) (List.replicate 32 0) [] [] 0 65536 65536 1 _
    (by decide) (by decide) (by decide) (by decide) (by decide) (by decide) (by rfl)

theorem ValuesPerRowOrCol.decode_eval {b r rest2 : List Nat} {pos len : Nat} (fl : DngOpcodeFlags)
    (hr : r.length = 32) (hlen : len < u32size)
    (h : b.drop pos = r ++ (be32 len ++ rest2)) :
    ValuesPerRowOrCol.decode fl b pos =
      (match decodeN len read_f32 b (pos + 36) with
        | .ok (vals, p) => .ok ({ flags := fl, region := regionOfBytes r, values := vals }, p)
        | .error e => .error e) ∧
      b.drop (pos + 36) = rest2 := by
  obtain ⟨hreg, hd32⟩ := region_decode_chunk hr h
  have hl32 := read_u32_be32 hlen hd32
  rw [show pos + 32 + 4 = pos + 36 by omega] at hl32
  have hd36 : b.drop (pos + 36) = rest2 := by
    have hd := drop_advance hd32 (be32_length len)
    rwa [show pos + 32 + 4 = pos + 36 by omega] at hd
  refine ⟨?_, hd36⟩
  unfold ValuesPerRowOrCol.decode
  simp only [bind_eval, hreg, hl32, pure_eval]
  cases hdec : decodeN len read_f32 b (pos + 36) with
  | error e => rfl
  | ok w => obtain ⟨vals, p⟩ := w; rfl

theorem decodeN_read_f32_replicate : ∀ (n : Nat) {b rest : List Nat} {pos : Nat},
    b.drop pos = List.replicate (4 * n) 0 ++ rest →
    decodeN n read_f32 b pos = .ok (List.replicate n 0, pos + 4 * n) := by
  intro n
  induction n with
  | zero =>
    intro b rest pos h
    simp [decodeN, pure_eval]
  | succ k ih =>
    intro b rest pos h
    have hrep : List.replicate (4 * (k + 1)) (0 : Nat) = [0, 0, 0, 0] ++ List.replicate (4 * k) 0 := by
      rw [show 4 * (k + 1) = 4 + 4 * k by omega, List.replicate_add]
      rfl
    rw [hrep, List.append_assoc] at h
    have e1 := read_f32_chunk h (by rfl)
    have d1 := drop_advance h (show ([0, 0, 0, 0] : List Nat).length = 4 by rfl)
    have hrec := ih d1
    have hval : beNat [0, 0, 0, 0] = 0 := by rfl
    simp only [decodeN, bind_eval, e1, hval, hrec, pure_eval]
    rw [show pos + 4 + 4 * k = pos + 4 * (k + 1) by omega]
    rfl

/-- C1 (amended): if a resolved opcode's payload decoder returns
successfully but the consumed byte count differs from the declared
`payload_len` modulo `2 ^ 32` - the source compares the positions after
truncating them to `u32` - then `decode_opcode_list` returns the fatal
size-mismatch error and surfaces no records at all, including entries
already decoded earlier in the buffer. -/
theorem c1_size_mismatch (b rest : List Nat) (j k p id spec flags len p2 : Nat)
    (op_id : DngOpcodeId) (op : DngOpcode) (ops : List DngOpcode)
    (hcount : read_u32 b 0 = .ok (j + k + 1, 4))
    (hj : decodeEntries j b 4 = .ok (ops, p))
    (hid : id < u32size) (hspec : spec < u32size) (hfl : flags < u32size) (hlen : len < u32size)
    (hres : DngOpcodeId.tryFrom id = some op_id)
    (h : b.drop p = be32 id ++ be32 spec ++ be32 flags ++ be32 len ++ rest)
    (hop : decodeOp op_id (DngOpcodeFlags.decode flags) b (p + 16) = .ok (op, p2))
    (hmm : ((p + 16) % u32size + len) % u32size ≠ p2 % u32size) :
    decode_opcode_list b = .error .sizeMismatch := by
  have he : decodeEntry b p = .error .sizeMismatch := by
    rw [decodeEntry_eval hid hspec hfl hlen h]
    simp only [hres, hop, if_pos hmm]
  exact decode_error_propagation hcount hj he

/-- Witness for C1: after a successfully decoded TrimBounds entry, a
FixBadPixelsConstant entry declares payload length 12 but its decoder
consumes 8 bytes; the whole decode fails with the size-mismatch error. -/
theorem c1_size_mismatch_witness :
    decodeOp DngOpcodeId.FixBadPixelsConstant (DngOpcodeFlags.decode 0)
        (be32 2 ++ (be32 6 ++ be32 0 ++ be32 1 ++ be32 16 ++ be32 0 ++ be32 0 ++ be32 100 ++ be32 200) ++
          (be32 4 ++ be32 0 ++ be32 0 ++ be32 12 ++ be32 7 ++ be32 8)) 52 =
      .ok (DngOpcode.FixBadPixelsConstant
        { flags := { optional := false, preview_skip := false }, constant := 7, bayer_phase := 8 }, 60) ∧
    ((36 + 16) % u32size + 12) % u32size ≠ 60 % u32size ∧
    decode_opcode_list
        (be32 2 ++ (be32 6 ++ be32 0 ++ be32 1 ++ be32 16 ++ be32 0 ++ be32 0 ++ be32 100 ++ be32 200) ++
          (be32 4 ++ be32 0 ++ be32 0 ++ be32 12 ++ be32 7 ++ be32 8)) = .error .sizeMismatch := by
  refine ⟨by rfl, by decide, ?_⟩
  exact c1_size_mismatch _ (be32 7 ++ be32 8) 1 0 36 4 0 0 12 60
    DngOpcodeId.FixBadPixelsConstant
    (DngOpcode.FixBadPixelsConstant
      { flags := { optional := false, preview_skip := false }, constant := 7, bayer_phase := 8 })
    [DngOpcode.TrimBounds
      { flags := { optional := true, preview_skip := false }, top := 0, left := 0, bottom := 100, right := 200 }]
    (by rfl) (by rfl) (by decide) (by decide) (by decide) (by decide) (by rfl) (by rfl) (by rfl)
    (by decide)

theorem decodeEntry_resolved_ok {b rest : List Nat} {pos id spec flags len p2 : Nat}
    {op_id : DngOpcodeId} {op : DngOpcode}
    (hid : id < u32size) (hspec : spec < u32size) (hfl : flags < u32size) (hlen : len < u32size)
    (hres : DngOpcodeId.tryFrom id = some op_id)
    (h : b.drop pos = be32 id ++ be32 spec ++ be32 flags ++ be32 len ++ rest)
    (hop : decodeOp op_id (DngOpcodeFlags.decode flags) b (pos + 16) = .ok (op, p2))
    (hok : ((pos + 16) % u32size + len) % u32size = p2 % u32size) :
    decodeEntry b pos = .ok (some op, p2) := by
  rw [decodeEntry_eval hid hspec hfl hlen h]
  simp only [hres, hop]
  rw [if_neg (fun hne => hne hok)]

theorem decode_single_resolved {b : List Nat} {p2 : Nat} {op : DngOpcode}
    (hcount : read_u32 b 0 = .ok (1, 4))
    (hentry : decodeEntry b 4 = .ok (some op, p2)) :
    decode_opcode_list b = .ok [op] := by
  rw [decode_opcode_list_eval hcount]
  have h1 := decodeEntries_succ 0 b 4
  rw [show (0 : Nat) + 1 = 1 from rfl] at h1
  rw [h1, hentry]
  rfl

theorem decodeOp_DeltaPerRow (fl : DngOpcodeFlags) (b : List Nat) (pos : Nat) :
    decodeOp DngOpcodeId.DeltaPerRow fl b pos = match ValuesPerRowOrCol.decode fl b pos with
      | .ok (v, p) => .ok (DngOpcode.DeltaPerRow v, p)
      | .error e => .error e := by
  show (ValuesPerRowOrCol.decode fl >>= fun x =>
      pure (DngOpcode.DeltaPerRow x) : DecM DngOpcode) b pos = _
  rw [bind_eval]
  cases h : ValuesPerRowOrCol.decode fl b pos with
  | error e => rfl
  | ok w => obtain ⟨v, p⟩ := w; rfl

/-- C1 counterexample: on this buffer the resolved DeltaPerRow payload
decoder returns successfully having consumed `36 + 2 ^ 32` bytes, which
differs from the declared `payload_len` 36, yet `decode_opcode_list`
returns the record instead of a size-mismatch error: the source compares
cursor positions only after truncating them to `u32`, and the two counts
agree modulo `2 ^ 32`. -/
theorem c1_size_mismatch_counterexample :
    decodeOp DngOpcodeId.DeltaPerRow (DngOpcodeFlags.decode 0) c1cexBuf 20 =
      .ok (c1cexRecord, 56 + 4294967296) ∧
    56 + 4294967296 - 20 ≠ 36 ∧
    decode_opcode_list c1cexBuf = .ok [c1cexRecord] := by
  have hd0 : c1cexBuf.drop 0 = be32 1 ++ (be32 10 ++ (be32 0 ++ (be32 0 ++ (be32 36 ++
      (List.replicate 32 0 ++ (be32 1073741824 ++ List.replicate 4294967296 0)))))) := rfl
  have hd4 : c1cexBuf.drop 4 = be32 10 ++ (be32 0 ++ (be32 0 ++ (be32 36 ++
      (List.replicate 32 0 ++ (be32 1073741824 ++ List.replicate 4294967296 0))))) := by
    have hd := drop_advance hd0 (be32_length 1)
    rwa [Nat.zero_add] at hd
  have hd4LA : c1cexBuf.drop 4 = be32 10 ++ be32 0 ++ be32 0 ++ be32 36 ++
      (List.replicate 32 0 ++ (be32 1073741824 ++ List.replicate 4294967296 0)) := by
    simpa only [List.append_assoc] using hd4
  have hd20 : c1cexBuf.drop 20 = List.replicate 32 0 ++
      (be32 1073741824 ++ List.replicate 4294967296 0) := by
    have d1 := drop_advance hd4 (be32_length 10)
    have d2 := drop_advance d1 (be32_length 0)
    have d3 := drop_advance d2 (be32_length 0)
    have d4 := drop_advance d3 (be32_length 36)
    rwa [show 4 + 4 + 4 + 4 + 4 = 20 by norm_num] at d4
  obtain ⟨hvrc, hd56⟩ := ValuesPerRowOrCol.decode_eval (DngOpcodeFlags.decode 0)
    (by decide) (by decide) hd20
  rw [show (20 : Nat) + 36 = 56 by norm_num] at hvrc hd56
  have hrep : c1cexBuf.drop 56 = List.replicate (4 * 1073741824) 0 ++ [] := by
    rw [List.append_nil, show 4 * 1073741824 = 4294967296 by norm_num]
    exact hd56
  have hdec := decodeN_read_f32_replicate 1073741824 hrep
  rw [show (56 : Nat) + 4 * 1073741824 = 56 + 4294967296 by norm_num] at hdec
  have hvo : ValuesPerRowOrCol.decode (DngOpcodeFlags.decode 0) c1cexBuf 20 =
      .ok ({ flags := DngOpcodeFlags.decode 0, region := regionOfBytes (List.replicate 32 0),
             values := List.replicate 1073741824 0 }, 56 + 4294967296) := by
    rw [hvrc, hdec]
  have hop : decodeOp DngOpcodeId.DeltaPerRow (DngOpcodeFlags.decode 0) c1cexBuf 20 =
      .ok (c1cexRecord, 56 + 4294967296) := by
    rw [decodeOp_DeltaPerRow, hvo]
    rfl
  have hentry : decodeEntry c1cexBuf 4 = .ok (some c1cexRecord, 56 + 4294967296) :=
    decodeEntry_resolved_ok (by decide) (by decide) (by decide) (by decide)
      (show DngOpcodeId.tryFrom 10 = some DngOpcodeId.DeltaPerRow from rfl) hd4LA hop (by decide)
  have hcount : read_u32 c1cexBuf 0 = .ok (1, 4) := by
    have hr := read_u32_be32 (by decide) hd0
    rwa [Nat.zero_add] at hr
  exact ⟨hop, by decide, decode_single_resolved hcount hentry⟩

theorem loc_pure {α : Type} (a : α) : Loc (pure a : DecM α) := by
  intro b1 b2 pos a2 p h
  rw [pure_eval] at h
  simp only [Except.ok.injEq, Prod.mk.injEq] at h
  obtain ⟨ha, hp⟩ := h
  subst ha; subst hp
  exact ⟨Nat.le_refl _, Or.inr rfl, fun _ _ => rfl⟩

theorem loc_bind {α β : Type} {m : DecM α} {f : α → DecM β}
    (hm : Loc m) (hf : ∀ a, Loc (f a)) : Loc (m >>= f) := by
  intro b1 b2 pos c p2 h
  rw [bind_eval] at h
  cases hm1 : m b1 pos with
  | error e => rw [hm1] at h; cases h
  | ok w =>
    obtain ⟨a, p1⟩ := w
    rw [hm1] at h
    obtain ⟨hmle, hmin, hmtr⟩ := hm b1 b2 pos a p1 hm1
    obtain ⟨hfle, hfin, hftr⟩ := hf a b1 b2 p1 c p2 h
    refine ⟨by omega, ?_, ?_⟩
    · rcases hfin with h1 | h1
      · exact Or.inl h1
      · rcases hmin with h2 | h2
        · exact Or.inl (h1 ▸ h2)
        · exact Or.inr (by omega)
    · intro hlen htake
      have hsub : p1 - pos ≤ p2 - pos := by omega
      have htake1 : (b1.drop pos).take (p1 - pos) = (b2.drop pos).take (p1 - pos) := by
        calc (b1.drop pos).take (p1 - pos)
            = ((b1.drop pos).take (p2 - pos)).take (p1 - pos) := by
              rw [List.take_take, min_eq_left hsub]
          _ = ((b2.drop pos).take (p2 - pos)).take (p1 - pos) := by rw [htake]
          _ = (b2.drop pos).take (p1 - pos) := by rw [List.take_take, min_eq_left hsub]
      have hm2 := hmtr hlen htake1
      have htake2 : (b1.drop p1).take (p2 - p1) = (b2.drop p1).take (p2 - p1) := by
        have e1 : b1.drop p1 = (b1.drop pos).drop (p1 - pos) := by
          rw [List.drop_drop]; congr 1; omega
        have e2 : b2.drop p1 = (b2.drop pos).drop (p1 - pos) := by
          rw [List.drop_drop]; congr 1; omega
        rw [e1, e2, List.take_drop (p1 - pos) (p2 - p1) (b1.drop pos),
          List.take_drop (p1 - pos) (p2 - p1) (b2.drop pos),
          show p1 - pos + (p2 - p1) = p2 - pos by omega, htake]
      have hf2 := hftr hlen htake2
      rw [bind_eval, hm2]
      exact hf2

theorem loc_readBytes (n : Nat) : Loc (readBytes n) := by
  intro b1 b2 pos a p h
  unfold readBytes at h
  by_cases hin : pos + n ≤ b1.length
  · rw [if_pos hin] at h
    simp only [Except.ok.injEq, Prod.mk.injEq] at h
    obtain ⟨ha, hp⟩ := h
    subst ha; subst hp
    refine ⟨by omega, Or.inl hin, ?_⟩
    intro hlen htake
    rw [show pos + n - pos = n by omega] at htake
    unfold readBytes
    rw [if_pos (by omega), htake]
  · rw [if_neg hin] at h
    cases h

theorem loc_getPos : Loc getPos := by
  intro b1 b2 pos a p h
  rw [getPos_eval] at h
  simp only [Except.ok.injEq, Prod.mk.injEq] at h
  obtain ⟨ha, hp⟩ := h
  subst ha; subst hp
  exact ⟨Nat.le_refl _, Or.inr rfl, fun _ _ => rfl⟩

theorem loc_throwErr {α : Type} (e : DecErr) : Loc (throwErr e : DecM α) := by
  intro b1 b2 pos a p h
  cases h

theorem loc_read_u32 : Loc read_u32 :=
  loc_bind (loc_readBytes 4) fun c => loc_pure (beNat c)

theorem loc_read_u16 : Loc read_u16 :=
  loc_bind (loc_readBytes 2) fun c => loc_pure (beNat c)

theorem loc_read_f64 : Loc read_f64 :=
  loc_bind (loc_readBytes 8) fun c => loc_pure (beNat c)

theorem loc_read_f32 : Loc read_f32 :=
  loc_bind (loc_readBytes 4) fun c => loc_pure (beNat c)

theorem loc_decodeN {α : Type} (d : DecM α) (hd : Loc d) : ∀ n, Loc (decodeN n d)
  | 0 => loc_pure []
  | n + 1 =>
    loc_bind hd fun x => loc_bind (loc_decodeN d hd n) fun xs => loc_pure (x :: xs)

set_option linter.unusedVariables false

theorem loc_region_decode : Loc DngOpcodeRegion.decode :=
  loc_bind loc_read_u32 fun top => loc_bind loc_read_u32 fun left =>
    loc_bind loc_read_u32 fun bottom => loc_bind loc_read_u32 fun right =>
      loc_bind loc_read_u32 fun plane => loc_bind loc_read_u32 fun planes =>
        loc_bind loc_read_u32 fun rp => loc_bind loc_read_u32 fun cp =>
          loc_pure _

theorem loc_warp_coef : Loc WarpRectilinearCoef.decode :=
  loc_bind (loc_decodeN read_f64 loc_read_f64 4) fun kr =>
    loc_bind (loc_decodeN read_f64 loc_read_f64 2) fun kt => loc_pure _

theorem loc_warp : ∀ fl, Loc (WarpRectilinear.decode fl) := fun _ =>
  loc_bind loc_read_u32 fun n =>
    loc_bind (loc_decodeN WarpRectilinearCoef.decode loc_warp_coef n) fun coefs =>
      loc_bind loc_read_f64 fun cx => loc_bind loc_read_f64 fun cy => loc_pure _

theorem loc_fisheye_coef : Loc WarpFisheyeCoef.decode :=
  loc_bind (loc_decodeN read_f64 loc_read_f64 4) fun kr => loc_pure _

theorem loc_fisheye : ∀ fl, Loc (WarpFisheye.decode fl) := fun _ =>
  loc_bind loc_read_u32 fun n =>
    loc_bind (loc_decodeN WarpFisheyeCoef.decode loc_fisheye_coef n) fun coefs =>
      loc_bind loc_read_f64 fun cx => loc_bind loc_read_f64 fun cy => loc_pure _

theorem loc_vignette : ∀ fl, Loc (FixVignetteRadial.decode fl) := fun _ =>
  loc_bind (loc_decodeN read_f64 loc_read_f64 5) fun k =>
    loc_bind loc_read_f64 fun cx => loc_bind loc_read_f64 fun cy => loc_pure _

theorem loc_bad_constant : ∀ fl, Loc (FixBadPixelsConstant.decode fl) := fun _ =>
  loc_bind loc_read_u32 fun c => loc_bind loc_read_u32 fun bp => loc_pure _

theorem loc_bad_point : Loc BadPoint.decode :=
  loc_bind loc_read_u32 fun r => loc_bind loc_read_u32 fun c => loc_pure _

theorem loc_bad_rect : Loc BadRect.decode :=
  loc_bind loc_read_u32 fun t => loc_bind loc_read_u32 fun l =>
    loc_bind loc_read_u32 fun b => loc_bind loc_read_u32 fun r => loc_pure _

theorem loc_bad_list : ∀ fl, Loc (FixBadPixelsList.decode fl) := fun _ =>
  loc_bind loc_read_u32 fun bp => loc_bind loc_read_u32 fun np =>
    loc_bind loc_read_u32 fun nr =>
      loc_bind (loc_decodeN BadPoint.decode loc_bad_point np) fun pts =>
        loc_bind (loc_decodeN BadRect.decode loc_bad_rect nr) fun rcts => loc_pure _

theorem loc_trim : ∀ fl, Loc (TrimBounds.decode fl) := fun _ =>
  loc_bind loc_read_u32 fun t => loc_bind loc_read_u32 fun l =>
    loc_bind loc_read_u32 fun b => loc_bind loc_read_u32 fun r => loc_pure _

theorem loc_map_table : ∀ fl, Loc (MapTable.decode fl) := fun _ =>
  loc_bind loc_region_decode fun reg => loc_bind loc_read_u32 fun len =>
    loc_bind (loc_decodeN read_u16 loc_read_u16 len) fun table => loc_pure _

theorem loc_map_poly : ∀ fl, Loc (MapPolynomial.decode fl) := fun _ =>
  loc_bind loc_region_decode fun reg => loc_bind loc_read_u32 fun deg =>
    loc_bind (loc_decodeN read_f64 loc_read_f64 (deg + 1)) fun coefs => loc_pure _

theorem loc_gain_map : ∀ fl, Loc (GainMap.decode fl) := fun _ =>
  loc_bind loc_region_decode fun reg => loc_bind loc_read_u32 fun v =>
    loc_bind loc_read_u32 fun hh => loc_bind loc_read_f64 fun sv =>
      loc_bind loc_read_f64 fun sh => loc_bind loc_read_f64 fun ov =>
        loc_bind loc_read_f64 fun oh => loc_bind loc_read_u32 fun pl =>
          loc_bind (loc_decodeN read_f32 loc_read_f32 ((hh * v * pl) % u32size)) fun g =>
            loc_pure _

theorem loc_warp2_coef : Loc WarpRectilinear2Coef.decode :=
  loc_bind (loc_decodeN read_f64 loc_read_f64 15) fun kr =>
    loc_bind (loc_decodeN read_f64 loc_read_f64 2) fun kt => loc_pure _

theorem loc_warp2 : ∀ fl, Loc (WarpRectilinear2.decode fl) := fun _ =>
  loc_bind loc_read_u32 fun n =>
    loc_bind (loc_decodeN WarpRectilinear2Coef.decode loc_warp2_coef n) fun coefs =>
      loc_bind loc_read_f64 fun cx => loc_bind loc_read_f64 fun cy =>
        loc_bind loc_read_u32 fun rr => loc_pure _

theorem loc_values : ∀ fl, Loc (ValuesPerRowOrCol.decode fl) := fun _ =>
  loc_bind loc_region_decode fun reg => loc_bind loc_read_u32 fun len =>
    loc_bind (loc_decodeN read_f32 loc_read_f32 len) fun vals => loc_pure _

theorem loc_decodeOp (op_id : DngOpcodeId) (fl : DngOpcodeFlags) : Loc (decodeOp op_id fl) := by
  cases op_id with
  | WarpRectilinear => exact loc_bind (loc_warp fl) fun x => loc_pure _
  | WarpFisheye => exact loc_bind (loc_fisheye fl) fun x => loc_pure _
  | FixVignetteRadial => exact loc_bind (loc_vignette fl) fun x => loc_pure _
  | FixBadPixelsConstant => exact loc_bind (loc_bad_constant fl) fun x => loc_pure _
  | FixBadPixelsList => exact loc_bind (loc_bad_list fl) fun x => loc_pure _
  | TrimBounds => exact loc_bind (loc_trim fl) fun x => loc_pure _
  | MapTable => exact loc_bind (loc_map_table fl) fun x => loc_pure _
  | MapPolynomial => exact loc_bind (loc_map_poly fl) fun x => loc_pure _
  | GainMap => exact loc_bind (loc_gain_map fl) fun x => loc_pure _
  | DeltaPerRow => exact loc_bind (loc_values fl) fun x => loc_pure _
  | DeltaPerColumn => exact loc_bind (loc_values fl) fun x => loc_pure _
  | ScalePerRow => exact loc_bind (loc_values fl) fun x => loc_pure _
  | ScalePerColumn => exact loc_bind (loc_values fl) fun x => loc_pure _
  | WarpRectilinear2 => exact loc_bind (loc_warp2 fl) fun x => loc_pure _

theorem SpecEq_length : ∀ {es1 es2 : List RawEntry}, SpecEq es1 es2 → es1.length = es2.length
  | [], [], _ => rfl
  | e1 :: es1, e2 :: es2, h => by
    simp only [List.length_cons, SpecEq_length h.2.2.2]

theorem encodeRawEntry_length_eq {e1 e2 : RawEntry}
    (hp : e1.payload = e2.payload) : (encodeRawEntry e1).length = (encodeRawEntry e2).length := by
  simp [encodeRawEntry, be32, hp]

theorem encodeRawEntries_length_eq : ∀ {es1 es2 : List RawEntry}, SpecEq es1 es2 →
    (encodeRawEntries es1).length = (encodeRawEntries es2).length
  | [], [], _ => rfl
  | e1 :: es1, e2 :: es2, h => by
    simp only [encodeRawEntries, List.length_append,
      encodeRawEntry_length_eq h.2.2.1, encodeRawEntries_length_eq h.2.2.2]

theorem encode_entry_shape {b : List Nat} {pos : Nat} (e : RawEntry) (X : List Nat)
    (h : b.drop pos = encodeRawEntry e ++ X) :
    b.drop pos = be32 e.id ++ be32 e.spec ++ be32 e.flags ++ be32 e.payload.length ++
      (e.payload ++ X) ∧
    b.drop (pos + 16) = e.payload ++ X ∧
    b.drop (pos + 16 + e.payload.length) = X ∧
    pos + 16 + e.payload.length ≤ b.length := by
  simp only [encodeRawEntry, List.append_assoc] at h
  have h1 : b.drop pos = be32 e.id ++ be32 e.spec ++ be32 e.flags ++ be32 e.payload.length ++
      (e.payload ++ X) := by
    simpa only [List.append_assoc] using h
  have d1 := drop_advance h (be32_length e.id)
  have d2 := drop_advance d1 (be32_length e.spec)
  have d3 := drop_advance d2 (be32_length e.flags)
  have d4 := drop_advance d3 (be32_length e.payload.length)
  rw [show pos + 4 + 4 + 4 + 4 = pos + 16 by omega] at d4
  have d5 := drop_advance d4 (rfl : e.payload.length = e.payload.length)
  have hne : (e.payload ++ X : List Nat) ≠ [] ∨ True := Or.inr trivial
  have hlenb : pos + 16 + e.payload.length ≤ b.length := by
    have hd : (b.drop pos).length = b.length - pos := List.length_drop pos b
    rw [h] at hd
    simp only [List.length_append, be32_length] at hd
    have hpos : pos ≤ b.length := by
      by_contra hcon
      rw [List.drop_eq_nil_of_le (by omega)] at h
      have := congrArg List.length h
      simp [be32] at this
    omega
  exact ⟨h1, d4, d5, hlenb⟩

theorem encodeRawEntry_len (e : RawEntry) :
    (encodeRawEntry e).length = 16 + e.payload.length := by
  simp only [encodeRawEntry, List.length_append, be32_length]

theorem SpecEq_refl : ∀ (es : List RawEntry), SpecEq es es
  | [] => trivial
  | _ :: es => ⟨rfl, rfl, rfl, SpecEq_refl es⟩

theorem encodeRawEntries_len_ge : ∀ (es : List RawEntry),
    16 * es.length ≤ (encodeRawEntries es).length := by
  intro es
  induction es with
  | nil => exact Nat.zero_le _
  | cons e es ih =>
    rw [show encodeRawEntries (e :: es) = encodeRawEntry e ++ encodeRawEntries es from rfl]
    simp only [List.length_append, List.length_cons, encodeRawEntry_len]
    omega

theorem encodeRawList_count_lt {es : List RawEntry} {rest : List Nat}
    (hsize : (encodeRawList es rest).length < u32size) : es.length < u32size := by
  have h1 := encodeRawEntries_len_ge es
  simp only [encodeRawList, List.length_append, be32_length] at hsize
  omega

theorem encodeRawListTail_count_lt {es : List RawEntry} {id spec flags len : Nat}
    {short : List Nat}
    (hsize : (encodeRawListTail es id spec flags len short).length < u32size) :
    es.length + 1 < u32size := by
  have h1 := encodeRawEntries_len_ge es
  simp only [encodeRawListTail, List.length_append, be32_length] at hsize
  omega

theorem entriesObliv : ∀ (es1 es2 : List RawEntry) (t1 t2 b1 b2 : List Nat)
    (pos : Nat) (ops : List DngOpcode) (p : Nat),
    SpecEq es1 es2 → WfEntries es1 → WfEntries es2 →
    b1.length = b2.length → b1.length < u32size →
    b1.drop pos = encodeRawEntries es1 ++ t1 →
    b2.drop pos = encodeRawEntries es2 ++ t2 →
    decodeEntries es1.length b1 pos = .ok (ops, p) →
    decodeEntries es2.length b2 pos = .ok (ops, p) ∧
      p = pos + (encodeRawEntries es1).length := by
  intro es1
  induction es1 with
  | nil =>
    intro es2 t1 t2 b1 b2 pos ops p hsp _ _ _ _ _ _ hrun
    cases es2 with
    | nil =>
      have hrun0 : (Except.ok (([] : List DngOpcode), pos) :
          Except DecErr (List DngOpcode × Nat)) = .ok (ops, p) := hrun
      simp only [Except.ok.injEq, Prod.mk.injEq] at hrun0
      obtain ⟨hops, hp⟩ := hrun0
      subst hops
      subst hp
      exact ⟨rfl, (Nat.add_zero pos).symm⟩
    | cons e2 es2 => exact absurd hsp (by simp [SpecEq])
  | cons e1 es1 ih =>
    intro es2 t1 t2 b1 b2 pos ops p hsp hwf1 hwf2 hlen hsize hb1 hb2 hrun
    cases es2 with
    | nil => exact absurd hsp (by simp [SpecEq])
    | cons e2 es2' =>
      obtain ⟨hid, hfl, hpay, hsp'⟩ := hsp
      obtain ⟨⟨hid1, hspec1, hflb1, hplen1⟩, hwf1'⟩ := hwf1
      obtain ⟨⟨hid2, hspec2, hflb2, hplen2⟩, hwf2'⟩ := hwf2
      have hpl : e1.payload.length = e2.payload.length := by rw [hpay]
      rw [show encodeRawEntries (e1 :: es1) = encodeRawEntry e1 ++ encodeRawEntries es1 from rfl,
        List.append_assoc] at hb1
      obtain ⟨h1, hpay1, hrest1, hbound1⟩ := encode_entry_shape e1 _ hb1
      rw [show encodeRawEntries (e2 :: es2') = encodeRawEntry e2 ++ encodeRawEntries es2' from rfl,
        List.append_assoc] at hb2
      obtain ⟨h2, hpay2, hrest2, hbound2⟩ := encode_entry_shape e2 _ hb2
      have hclen : (encodeRawEntries (e1 :: es1)).length =
          16 + e1.payload.length + (encodeRawEntries es1).length := by
        rw [show encodeRawEntries (e1 :: es1) = encodeRawEntry e1 ++ encodeRawEntries es1
          from rfl]
        simp only [List.length_append, encodeRawEntry_len]
      rw [show (e1 :: es1).length = es1.length + 1 from rfl, decodeEntries_succ] at hrun
      rw [show (e2 :: es2').length = es2'.length + 1 from rfl, decodeEntries_succ]
      cases htf : DngOpcodeId.tryFrom e1.id with
      | none =>
        have hde1 : decodeEntry b1 pos = .ok (none, pos + 16 + e1.payload.length) := by
          rw [decodeEntry_eval hid1 hspec1 hflb1 hplen1 h1, htf]
        have htf2 : DngOpcodeId.tryFrom e2.id = none := hid ▸ htf
        have hde2 : decodeEntry b2 pos = .ok (none, pos + 16 + e2.payload.length) := by
          rw [decodeEntry_eval hid2 hspec2 hflb2 hplen2 h2, htf2]
        rw [← hpl] at hde2 hrest2
        simp only [hde1] at hrun
        simp only [hde2]
        obtain ⟨hihrun, hihpos⟩ := ih es2' t1 t2 b1 b2 (pos + 16 + e1.payload.length) ops p hsp'
          hwf1' hwf2' hlen hsize hrest1 hrest2 hrun
        refine ⟨hihrun, ?_⟩
        rw [hihpos, hclen]
        omega
      | some op_id =>
        cases hop1 : decodeOp op_id (DngOpcodeFlags.decode e1.flags) b1 (pos + 16) with
        | error e =>
          have hde1 : decodeEntry b1 pos = .error e := by
            rw [decodeEntry_eval hid1 hspec1 hflb1 hplen1 h1]
            simp only [htf, hop1]
          simp only [hde1] at hrun
          cases hrun
        | ok w =>
          obtain ⟨op, p1⟩ := w
          obtain ⟨hople, hopin, hoptr⟩ := loc_decodeOp op_id (DngOpcodeFlags.decode e1.flags)
            b1 b2 (pos + 16) op p1 hop1
          by_cases hcond : ((pos + 16) % u32size + e1.payload.length) % u32size ≠ p1 % u32size
          · have hde1 : decodeEntry b1 pos = .error .sizeMismatch := by
              rw [decodeEntry_eval hid1 hspec1 hflb1 hplen1 h1]
              simp only [htf, hop1, if_pos hcond]
            simp only [hde1] at hrun
            cases hrun
          · have hcondEq : ((pos + 16) % u32size + e1.payload.length) % u32size =
                p1 % u32size := not_ne_iff.mp hcond
            have hde1 : decodeEntry b1 pos = .ok (some op, p1) :=
              decodeEntry_resolved_ok hid1 hspec1 hflb1 hplen1 htf h1 hop1 hcondEq
            have hp1 : p1 = pos + 16 + e1.payload.length := by
              have hm1 : (pos + 16) % u32size = pos + 16 := Nat.mod_eq_of_lt (by omega)
              have hm2 : (pos + 16 + e1.payload.length) % u32size =
                  pos + 16 + e1.payload.length := Nat.mod_eq_of_lt (by omega)
              have hp1lt : p1 < u32size := by rcases hopin with h' | h' <;> omega
              have hm3 : p1 % u32size = p1 := Nat.mod_eq_of_lt hp1lt
              rw [hm1, hm2, hm3] at hcondEq
              omega
            subst hp1
            have hwin : (b1.drop (pos + 16)).take (pos + 16 + e1.payload.length - (pos + 16)) =
                (b2.drop (pos + 16)).take (pos + 16 + e1.payload.length - (pos + 16)) := by
              rw [show pos + 16 + e1.payload.length - (pos + 16) = e1.payload.length by omega,
                hpay1, hpay2, ← hpay, List.take_left, List.take_left]
            have hop2 := hoptr hlen hwin
            rw [hfl] at hop2
            have htf2 : DngOpcodeId.tryFrom e2.id = some op_id := hid ▸ htf
            have hcond2 : ((pos + 16) % u32size + e2.payload.length) % u32size =
                (pos + 16 + e1.payload.length) % u32size := by
              rw [← hpl]
              exact hcondEq
            have hde2 : decodeEntry b2 pos = .ok (some op, pos + 16 + e1.payload.length) :=
              decodeEntry_resolved_ok hid2 hspec2 hflb2 hplen2 htf2 h2 hop2 hcond2
            rw [← hpl] at hrest2
            simp only [hde1] at hrun
            simp only [hde2]
            cases hrec : decodeEntries es1.length b1 (pos + 16 + e1.payload.length) with
            | error e =>
              rw [hrec] at hrun
              simp at hrun
            | ok w2 =>
              obtain ⟨ops2, p2⟩ := w2
              rw [hrec] at hrun
              simp only [Except.ok.injEq, Prod.mk.injEq] at hrun
              obtain ⟨hops, hp⟩ := hrun
              subst hops; subst hp
              obtain ⟨hihrun, hihpos⟩ := ih es2' t1 t2 b1 b2 (pos + 16 + e1.payload.length)
                ops2 p2 hsp' hwf1' hwf2' hlen hsize hrest1 hrest2 hrec
              refine ⟨?_, ?_⟩
              · rw [hihrun]
              · rw [hihpos, hclen]
                omega

theorem specObliv_framed (es1 es2 : List RawEntry) (rest : List Nat) (ops : List DngOpcode)
    (hsp : SpecEq es1 es2) (hwf1 : WfEntries es1) (hwf2 : WfEntries es2)
    (hsize : (encodeRawList es1 rest).length < u32size)
    (hok : decode_opcode_list (encodeRawList es1 rest) = .ok ops) :
    decode_opcode_list (encodeRawList es2 rest) = .ok ops := by
  have hcnt : es1.length < u32size := encodeRawList_count_lt hsize
  have hlen : (encodeRawList es1 rest).length = (encodeRawList es2 rest).length := by
    simp only [encodeRawList, List.length_append, be32_length, encodeRawEntries_length_eq hsp]
  have hcnt2 : es2.length = es1.length := (SpecEq_length hsp).symm
  have hd0_1 : (encodeRawList es1 rest).drop 0 =
      be32 es1.length ++ (encodeRawEntries es1 ++ rest) := rfl
  have hd0_2 : (encodeRawList es2 rest).drop 0 =
      be32 es2.length ++ (encodeRawEntries es2 ++ rest) := rfl
  have hc1 : read_u32 (encodeRawList es1 rest) 0 = .ok (es1.length, 4) := by
    have hr := read_u32_be32 hcnt hd0_1
    rwa [Nat.zero_add] at hr
  have hc2 : read_u32 (encodeRawList es2 rest) 0 = .ok (es2.length, 4) := by
    have hr := read_u32_be32 (show es2.length < u32size by omega) hd0_2
    rwa [Nat.zero_add] at hr
  have hd4_1 : (encodeRawList es1 rest).drop 4 = encodeRawEntries es1 ++ rest := by
    have hd := drop_advance hd0_1 (be32_length es1.length)
    rwa [Nat.zero_add] at hd
  have hd4_2 : (encodeRawList es2 rest).drop 4 = encodeRawEntries es2 ++ rest := by
    have hd := drop_advance hd0_2 (be32_length es2.length)
    rwa [Nat.zero_add] at hd
  rw [decode_opcode_list_eval hc1] at hok
  rw [decode_opcode_list_eval hc2]
  cases hrun : decodeEntries es1.length (encodeRawList es1 rest) 4 with
  | error e =>
    rw [hrun] at hok
    simp at hok
  | ok w =>
    obtain ⟨ops0, p⟩ := w
    rw [hrun] at hok
    simp only [Except.ok.injEq] at hok
    subst hok
    have h2run := entriesObliv es1 es2 rest rest (encodeRawList es1 rest)
      (encodeRawList es2 rest) 4 ops0 p hsp hwf1 hwf2 hlen hsize hd4_1 hd4_2 hrun
    rw [h2run.1]

theorem specObliv_tail (es1 es2 : List RawEntry) (id spec1 spec2 flags len : Nat)
    (short : List Nat) (ops : List DngOpcode)
    (hsp : SpecEq es1 es2) (hwf1 : WfEntries es1) (hwf2 : WfEntries es2)
    (hid : id < u32size) (hspec1 : spec1 < u32size) (hspec2 : spec2 < u32size)
    (hflags : flags < u32size) (hlenw : len < u32size)
    (hunk : DngOpcodeId.tryFrom id = none)
    (hsize : (encodeRawListTail es1 id spec1 flags len short).length < u32size)
    (hok : decode_opcode_list (encodeRawListTail es1 id spec1 flags len short) = .ok ops) :
    decode_opcode_list (encodeRawListTail es2 id spec2 flags len short) = .ok ops := by
  have hcnt : es1.length + 1 < u32size := encodeRawListTail_count_lt hsize
  have hlen12 : (encodeRawListTail es1 id spec1 flags len short).length =
      (encodeRawListTail es2 id spec2 flags len short).length := by
    simp only [encodeRawListTail, List.length_append, be32_length,
      encodeRawEntries_length_eq hsp, SpecEq_length hsp]
  have hcnt2 : es2.length = es1.length := (SpecEq_length hsp).symm
  have hd0_1 : (encodeRawListTail es1 id spec1 flags len short).drop 0 =
      be32 (es1.length + 1) ++ (encodeRawEntries es1 ++
        (be32 id ++ be32 spec1 ++ be32 flags ++ be32 len ++ short)) := rfl
  have hd0_2 : (encodeRawListTail es2 id spec2 flags len short).drop 0 =
      be32 (es2.length + 1) ++ (encodeRawEntries es2 ++
        (be32 id ++ be32 spec2 ++ be32 flags ++ be32 len ++ short)) := rfl
  have hc1 : read_u32 (encodeRawListTail es1 id spec1 flags len short) 0 =
      .ok (es1.length + 1, 4) := by
    have hr := read_u32_be32 hcnt hd0_1
    rwa [Nat.zero_add] at hr
  have hc2 : read_u32 (encodeRawListTail es2 id spec2 flags len short) 0 =
      .ok (es2.length + 1, 4) := by
    have hr := read_u32_be32 (show es2.length + 1 < u32size by omega) hd0_2
    rwa [Nat.zero_add] at hr
  have hd4_1 : (encodeRawListTail es1 id spec1 flags len short).drop 4 =
      encodeRawEntries es1 ++ (be32 id ++ be32 spec1 ++ be32 flags ++ be32 len ++ short) := by
    have hd := drop_advance hd0_1 (be32_length (es1.length + 1))
    rwa [Nat.zero_add] at hd
  have hd4_2 : (encodeRawListTail es2 id spec2 flags len short).drop 4 =
      encodeRawEntries es2 ++ (be32 id ++ be32 spec2 ++ be32 flags ++ be32 len ++ short) := by
    have hd := drop_advance hd0_2 (be32_length (es2.length + 1))
    rwa [Nat.zero_add] at hd
  rw [decode_opcode_list_eval hc1, decodeEntries_add es1.length 1] at hok
  cases hrun1 : decodeEntries es1.length (encodeRawListTail es1 id spec1 flags len short) 4 with
  | error e =>
    rw [hrun1] at hok
    simp at hok
  | ok w =>
    obtain ⟨ops1, p1⟩ := w
    simp only [hrun1] at hok
    obtain ⟨hoblv, hpos⟩ := entriesObliv es1 es2
      (be32 id ++ be32 spec1 ++ be32 flags ++ be32 len ++ short)
      (be32 id ++ be32 spec2 ++ be32 flags ++ be32 len ++ short)
      (encodeRawListTail es1 id spec1 flags len short)
      (encodeRawListTail es2 id spec2 flags len short)
      4 ops1 p1 hsp hwf1 hwf2 hlen12 hsize hd4_1 hd4_2 hrun1
    have hdp1_1 : (encodeRawListTail es1 id spec1 flags len short).drop p1 =
        be32 id ++ be32 spec1 ++ be32 flags ++ be32 len ++ short := by
      have hd := drop_advance hd4_1
        (rfl : (encodeRawEntries es1).length = (encodeRawEntries es1).length)
      rwa [← hpos] at hd
    have hdp1_2 : (encodeRawListTail es2 id spec2 flags len short).drop p1 =
        be32 id ++ be32 spec2 ++ be32 flags ++ be32 len ++ short := by
      have hd := drop_advance hd4_2
        (rfl : (encodeRawEntries es2).length = (encodeRawEntries es2).length)
      rw [← encodeRawEntries_length_eq hsp, ← hpos] at hd
      exact hd
    have hskip1 : decodeEntry (encodeRawListTail es1 id spec1 flags len short) p1 =
        .ok (none, p1 + 16 + len) := by
      rw [decodeEntry_eval hid hspec1 hflags hlenw hdp1_1, hunk]
    have hskip2 : decodeEntry (encodeRawListTail es2 id spec2 flags len short) p1 =
        .ok (none, p1 + 16 + len) := by
      rw [decodeEntry_eval hid hspec2 hflags hlenw hdp1_2, hunk]
    have hone1 : decodeEntries 1 (encodeRawListTail es1 id spec1 flags len short) p1 =
        .ok ([], p1 + 16 + len) := by
      have hs := decodeEntries_succ 0 (encodeRawListTail es1 id spec1 flags len short) p1
      rw [show (0 : Nat) + 1 = 1 from rfl] at hs
      rw [hs]
      simp only [hskip1]
      rfl
    have hone2 : decodeEntries 1 (encodeRawListTail es2 id spec2 flags len short) p1 =
        .ok ([], p1 + 16 + len) := by
      have hs := decodeEntries_succ 0 (encodeRawListTail es2 id spec2 flags len short) p1
      rw [show (0 : Nat) + 1 = 1 from rfl] at hs
      rw [hs]
      simp only [hskip2]
      rfl
    simp only [hone1, List.append_nil, Except.ok.injEq] at hok
    subst hok
    rw [decode_opcode_list_eval hc2, decodeEntries_add es2.length 1]
    simp only [hoblv, hone2, List.append_nil]

theorem decodeN_read_f32_cons {b c rest : List Nat} {pos n : Nat} {vs : List Nat} {p : Nat}
    (hc : c.length = 4) (h : b.drop pos = c ++ rest)
    (hrec : decodeN n read_f32 b (pos + 4) = .ok (vs, p)) :
    decodeN (n + 1) read_f32 b pos = .ok (beNat c :: vs, p) := by
  simp only [decodeN, bind_eval, read_f32_chunk h hc, hrec, pure_eval]

theorem decode_two_entries {b : List Nat} {p1 p2 : Nat} {op : DngOpcode}
    (hcount : read_u32 b 0 = .ok (2, 4))
    (h1 : decodeEntry b 4 = .ok (some op, p1))
    (h2 : decodeEntry b p1 = .ok (none, p2)) :
    decode_opcode_list b = .ok [op] := by
  have e1 : decodeEntries 1 b p1 = .ok ([], p2) := by
    have hs := decodeEntries_succ 0 b p1
    rw [show (0 : Nat) + 1 = 1 from rfl] at hs
    rw [hs]
    simp only [h2]
    rfl
  have e2 : decodeEntries 2 b 4 = .ok ([op], p2) := by
    have hs := decodeEntries_succ 1 b 4
    rw [show (1 : Nat) + 1 = 2 from rfl] at hs
    rw [hs]
    simp only [h1, e1]
  rw [decode_opcode_list_eval hcount, e2]

theorem c7big_decode (s : Nat) (hs : s < u32size) :
    decode_opcode_list (encodeRawList [c7bigEntry1, c7bigEntry2 s] []) =
      .ok [c7bigRecord s] := by
  have hd0 : (encodeRawList [c7bigEntry1, c7bigEntry2 s] []).drop 0 =
      be32 2 ++ (be32 10 ++ (be32 0 ++ (be32 0 ++ (be32 36 ++ (List.replicate 32 0 ++
        (be32 1073741824 ++ (be32 0 ++ (be32 s ++ (be32 0 ++ (be32 4294967296 ++
          List.replicate 4294967296 0)))))))))) := by
    simp only [encodeRawList, encodeRawEntries, encodeRawEntry, c7bigEntry1, c7bigEntry2,
      List.drop_zero, List.length_append, List.length_replicate, be32_length, List.length_cons,
      List.length_nil, List.append_assoc, List.append_nil, Nat.reduceAdd]
  have hcount : read_u32 (encodeRawList [c7bigEntry1, c7bigEntry2 s] []) 0 = .ok (2, 4) := by
    have hr := read_u32_be32 (by decide) hd0
    rwa [Nat.zero_add] at hr
  have hd4 : (encodeRawList [c7bigEntry1, c7bigEntry2 s] []).drop 4 =
      be32 10 ++ (be32 0 ++ (be32 0 ++ (be32 36 ++ (List.replicate 32 0 ++
        (be32 1073741824 ++ (be32 0 ++ (be32 s ++ (be32 0 ++ (be32 4294967296 ++
          List.replicate 4294967296 0))))))))) := by
    have hd := drop_advance hd0 (be32_length 2)
    rwa [Nat.zero_add] at hd
  have hd4LA : (encodeRawList [c7bigEntry1, c7bigEntry2 s] []).drop 4 =
      be32 10 ++ be32 0 ++ be32 0 ++ be32 36 ++ (List.replicate 32 0 ++
        (be32 1073741824 ++ (be32 0 ++ (be32 s ++ (be32 0 ++ (be32 4294967296 ++
          List.replicate 4294967296 0)))))) := by
    simpa only [List.append_assoc] using hd4
  have hd20 : (encodeRawList [c7bigEntry1, c7bigEntry2 s] []).drop 20 =
      List.replicate 32 0 ++ (be32 1073741824 ++ (be32 0 ++ (be32 s ++ (be32 0 ++
        (be32 4294967296 ++ List.replicate 4294967296 0))))) := by
    have d1 := drop_advance hd4 (be32_length 10)
    have d2 := drop_advance d1 (be32_length 0)
    have d3 := drop_advance d2 (be32_length 0)
    have d4 := drop_advance d3 (be32_length 36)
    rwa [show 4 + 4 + 4 + 4 + 4 = 20 by norm_num] at d4
  obtain ⟨hvrc, hd56⟩ := ValuesPerRowOrCol.decode_eval (DngOpcodeFlags.decode 0)
    (by decide) (by decide) hd20
  rw [show (20 : Nat) + 36 = 56 by norm_num] at hvrc hd56
  have d60 := drop_advance hd56 (be32_length 0)
  rw [show (56 : Nat) + 4 = 60 by norm_num] at d60
  have d64 := drop_advance d60 (be32_length s)
  rw [show (60 : Nat) + 4 = 64 by norm_num] at d64
  have d68 := drop_advance d64 (be32_length 0)
  rw [show (64 : Nat) + 4 = 68 by norm_num] at d68
  have d72 := drop_advance d68 (be32_length 4294967296)
  rw [show (68 : Nat) + 4 = 72 by norm_num] at d72
  have hd72 : (encodeRawList [c7bigEntry1, c7bigEntry2 s] []).drop 72 =
      List.replicate (4 * 1073741820) 0 ++ List.replicate 16 0 := by
    rw [d72, show (4294967296 : Nat) = 4 * 1073741820 + 16 by norm_num, List.replicate_add]
  have hrec4 := decodeN_read_f32_replicate 1073741820 hd72
  rw [show (72 : Nat) + 4 * 1073741820 = 4294967352 by norm_num] at hrec4
  have h68 := decodeN_read_f32_cons (be32_length 4294967296) d68 hrec4
  rw [show beNat (be32 4294967296) = 0 by decide,
    show (1073741820 : Nat) + 1 = 1073741821 by norm_num] at h68
  have h64 := decodeN_read_f32_cons (be32_length 0) d64 h68
  rw [show beNat (be32 0) = 0 by decide,
    show (1073741821 : Nat) + 1 = 1073741822 by norm_num] at h64
  have h60 := decodeN_read_f32_cons (be32_length s) d60 h64
  rw [beNat_be32 hs, show (1073741822 : Nat) + 1 = 1073741823 by norm_num] at h60
  have h56 := decodeN_read_f32_cons (be32_length 0) hd56 h60
  rw [show beNat (be32 0) = 0 by decide,
    show (1073741823 : Nat) + 1 = 1073741824 by norm_num] at h56
  have hvo : ValuesPerRowOrCol.decode (DngOpcodeFlags.decode 0)
      (encodeRawList [c7bigEntry1, c7bigEntry2 s] []) 20 =
      .ok ({ flags := DngOpcodeFlags.decode 0, region := regionOfBytes (List.replicate 32 0),
             values := 0 :: s :: 0 :: 0 :: List.replicate 1073741820 0 }, 4294967352) := by
    rw [hvrc, h56]
  have hop : decodeOp DngOpcodeId.DeltaPerRow (DngOpcodeFlags.decode 0)
      (encodeRawList [c7bigEntry1, c7bigEntry2 s] []) 20 =
      .ok (c7bigRecord s, 4294967352) := by
    rw [decodeOp_DeltaPerRow, hvo]
    rfl
  have hentry1 : decodeEntry (encodeRawList [c7bigEntry1, c7bigEntry2 s] []) 4 =
      .ok (some (c7bigRecord s), 4294967352) :=
    decodeEntry_resolved_ok (by decide) (by decide) (by decide) (by decide)
      (show DngOpcodeId.tryFrom 10 = some DngOpcodeId.DeltaPerRow from rfl) hd4LA hop (by decide)
  have d4352 := drop_advance hd72 (List.length_replicate _ _)
  rw [show (72 : Nat) + 4 * 1073741820 = 4294967352 by norm_num,
    show (List.replicate 16 0 : List Nat) = be32 0 ++ be32 0 ++ be32 0 ++ be32 0 ++ []
      from rfl] at d4352
  have hentry2 : decodeEntry (encodeRawList [c7bigEntry1, c7bigEntry2 s] []) 4294967352 =
      .ok (none, 4294967352 + 16 + 0) := by
    rw [decodeEntry_eval (by decide) (by decide) (by decide) (by decide) d4352]
    rfl
  exact decode_two_entries hcount hentry1 hentry2

/-- C7 (amended): the `spec_version` word of every entry is consumed and
discarded, and on buffers smaller than `2 ^ 32` bytes this makes
successful decodes oblivious to `spec_version` values. For a buffer
below `2 ^ 32` bytes that consists of a count word followed by that many
complete entries - each a 16-byte header whose declared `payload_len`
equals the length of the payload bytes that follow it - plus arbitrary
trailing bytes, and likewise for such a buffer whose final entry is an
unrecognized-id bare header with arbitrary declared length and arbitrary
following bytes, a successful `decode_opcode_list` returns the identical
record list when the entries' `spec_version` values are replaced by any
other in-range values. The size bound is necessary: two buffers of
`2 ^ 32 + 72` bytes that differ only in the second entry's
`spec_version` word both decode successfully but to different record
lists, because the first entry's overrunning payload decoder passes the
`u32`-truncated size check and stores the second entry's `spec_version`
word inside its record. -/
theorem c7_spec_version_obliv :
    (∀ (es1 es2 : List RawEntry) (rest : List Nat) (ops : List DngOpcode),
      SpecEq es1 es2 → WfEntries es1 → WfEntries es2 →
      (encodeRawList es1 rest).length < u32size →
      decode_opcode_list (encodeRawList es1 rest) = .ok ops →
      decode_opcode_list (encodeRawList es2 rest) = .ok ops) ∧
    (∀ (es1 es2 : List RawEntry) (id spec1 spec2 flags len : Nat) (short : List Nat)
      (ops : List DngOpcode),
      SpecEq es1 es2 → WfEntries es1 → WfEntries es2 →
      id < u32size → spec1 < u32size → spec2 < u32size → flags < u32size → len < u32size →
      DngOpcodeId.tryFrom id = none →
      (encodeRawListTail es1 id spec1 flags len short).length < u32size →
      decode_opcode_list (encodeRawListTail es1 id spec1 flags len short) = .ok ops →
      decode_opcode_list (encodeRawListTail es2 id spec2 flags len short) = .ok ops) ∧
    (SpecEq [c7bigEntry1, c7bigEntry2 0] [c7bigEntry1, c7bigEntry2 1] ∧
      decode_opcode_list (encodeRawList [c7bigEntry1, c7bigEntry2 0] []) =
        .ok [c7bigRecord 0] ∧
      decode_opcode_list (encodeRawList [c7bigEntry1, c7bigEntry2 1] []) =
        .ok [c7bigRecord 1] ∧
      (Except.ok [c7bigRecord 0] : Except DecErr (List DngOpcode)) ≠ .ok [c7bigRecord 1]) := by
  refine ⟨specObliv_framed, specObliv_tail, ⟨rfl, rfl, rfl, rfl, rfl, rfl, trivial⟩,
    c7big_decode 0 (by decide), c7big_decode 1 (by decide), ?_⟩
  intro hcon
  injection hcon with h1
  injection h1 with h2 h2t
  simp only [c7bigRecord] at h2
  injection h2 with h3
  injection h3 with hfl hreg hvals
  injection hvals with hv0 htl
  injection htl with h01 htl2
  exact absurd h01 (by decide)

/-- Witness for C7: a single TrimBounds entry decoded with `spec_version`
0 and with `spec_version` 7 yields the identical record, and a buffer
whose final entry is an unknown-id bare header whose declared length
1000 overruns the buffer decodes to the empty record list with
`spec_version` 0 and with `spec_version` 5 alike. -/
theorem c7_spec_version_obliv_witness :
    (decode_opcode_list (encodeRawList [⟨6, 0, 1, be32 0 ++ be32 0 ++ be32 100 ++ be32 200⟩] []) =
        .ok [DngOpcode.TrimBounds
          { flags := { optional := true, preview_skip := false },
            top := 0, left := 0, bottom := 100, right := 200 }] ∧
      decode_opcode_list (encodeRawList [⟨6, 7, 1, be32 0 ++ be32 0 ++ be32 100 ++ be32 200⟩] []) =
        .ok [DngOpcode.TrimBounds
          { flags := { optional := true, preview_skip := false },
            top := 0, left := 0, bottom := 100, right := 200 }]) ∧
    (decode_opcode_list (encodeRawListTail [] 99 0 0 1000 []) = .ok [] ∧
      decode_opcode_list (encodeRawListTail [] 99 5 0 1000 []) = .ok []) :=
  ⟨⟨by rfl,
    c7_spec_version_obliv.1 [⟨6, 0, 1, be32 0 ++ be32 0 ++ be32 100 ++ be32 200⟩]
      [⟨6, 7, 1, be32 0 ++ be32 0 ++ be32 100 ++ be32 200⟩] [] _
      ⟨rfl, rfl, rfl, trivial⟩
      ⟨⟨by decide, by decide, by decide, by decide⟩, trivial⟩
      ⟨⟨by decide, by decide, by decide, by decide⟩, trivial⟩
      (by decide) (by rfl)⟩,
   ⟨by rfl,
    c7_spec_version_obliv.2.1 [] [] 99 0 5 0 1000 [] []
      trivial trivial trivial
      (by decide) (by decide) (by decide) (by decide) (by decide)
      (tryFrom_eq_none (Or.inr (by decide))) (by decide) (by rfl)⟩⟩

/-- C7 counterexample: two buffers that differ only in the `spec_version`
field of their second entry can decode to different results. Entry one
(FixBadPixelsList, declared payload length 4) overruns its payload and
reads the second entry's `spec_version` word as its rectangle count:
with value 0 the decode fails with the size-mismatch error, with value 1
it fails with the truncation error. -/
theorem c7_spec_version_obliv_counterexample :
    SpecEq [⟨5, 0, 0, be32 0⟩, ⟨0, 0, 0, []⟩] [⟨5, 0, 0, be32 0⟩, ⟨0, 1, 0, []⟩] ∧
    decode_opcode_list (encodeRawList [⟨5, 0, 0, be32 0⟩, ⟨0, 0, 0, []⟩] []) =
      .error .sizeMismatch ∧
    decode_opcode_list (encodeRawList [⟨5, 0, 0, be32 0⟩, ⟨0, 1, 0, []⟩] []) =
      .error .truncated ∧
    decode_opcode_list (encodeRawList [⟨5, 0, 0, be32 0⟩, ⟨0, 0, 0, []⟩] []) ≠
      decode_opcode_list (encodeRawList [⟨5, 0, 0, be32 0⟩, ⟨0, 1, 0, []⟩] []) := by
  refine ⟨⟨rfl, rfl, rfl, rfl, rfl, rfl, trivial⟩, by rfl, by rfl, ?_⟩
  intro hcon
  rw [show decode_opcode_list (encodeRawList [⟨5, 0, 0, be32 0⟩, ⟨0, 0, 0, []⟩] []) =
      .error .sizeMismatch from rfl,
    show decode_opcode_list (encodeRawList [⟨5, 0, 0, be32 0⟩, ⟨0, 1, 0, []⟩] []) =
      .error .truncated from rfl] at hcon
  cases hcon
